import Mathlib

/-!
# xfce4-applet-clock: the analog clock panel plugin (`src/panel-plugin/clock.c`)

A shallow embedding of the clock rendering and live-update code.

Conventions of the embedding

* `gdouble` values are idealised as elements of a field `K`; the theorems
  instantiate `K` with the real numbers.  The glib constant `G_PI` and the
  `math.h` functions `sin` and `cos` are not part of the repository and are
  taken as a parameter (`Libm`); over the reals they are `Real.pi`,
  `Real.sin` and `Real.cos`.
* `guint` and the non-negative `gint` values are natural numbers, `gint`
  canvas sizes are integers.
* cairo and GTK are modelled by the list of calls the code issues.
-/

namespace Clock

/-! ## Angles (`clock.c` lines 43-46) -/

/-- The part of the C math environment the plugin uses: `G_PI` from glib,
`sin` and `cos` from `math.h`. -/
structure Libm (K : Type) where
  G_PI : K
  sin : K → K
  cos : K → K

/-- Line 43: `#define CLOCK_SCALE 0.1`. -/
def CLOCK_SCALE {K : Type} [Field K] : K := 0.1

/-- Line 44: `#define TICKS_TO_RADIANS(x) (G_PI - (G_PI / 30.0) * (x))`. -/
def TICKS_TO_RADIANS {K : Type} [Field K] (M : Libm K) (x : ℕ) : K :=
  M.G_PI - (M.G_PI / 30.0) * (x : K)

/-- Lines 45-46: `#define HOURS_TO_RADIANS(x, y)
(G_PI - (G_PI / 6.0) * (((x) > 12 ? (x)-12 : (x)) + (y) / 60.0))`.
The conditional is evaluated on the integer argument, the quotient
`(y) / 60.0` is a floating-point division. -/
def HOURS_TO_RADIANS {K : Type} [Field K] (M : Libm K) (x y : ℕ) : K :=
  M.G_PI - (M.G_PI / 6.0) * (((if x > 12 then x - 12 else x : ℕ) : K) + (y : K) / 60.0)

/-- The hour-hand angle as the specification words it:
`π − (π/6)·((h mod 12) + m/60)`. -/
def hour_angle_spec {K : Type} [Field K] (pi : K) (h m : ℕ) : K :=
  pi - (pi / 6) * (((h % 12 : ℕ) : K) + (m : K) / 60)

/-! ## Weekday names (`clock.c` lines 106-125) -/

/-- Lines 106-125: `GetWeekdayAsString`, a `switch` over a `guint`. -/
def GetWeekdayAsString (day : ℕ) : String :=
  match day with
  | 1 => "Mon"
  | 2 => "Tue"
  | 3 => "Wed"
  | 4 => "Thu"
  | 5 => "Fri"
  | 6 => "Sat"
  | 7 => "Sun"
  | _ => "---"

/-! ## Drawing (`clock.c` lines 132-182) -/

/-- The cairo calls the plugin issues on its drawing context `cr`. -/
inductive CairoCall (K : Type)
  | move_to (x y : K)
  | line_to (x y : K)
  | arc (xc yc radius angle1 angle2 : K)
  | close_path
  | fill
  | stroke

/-- Lines 136-146: the `for (i = ...; i < 12; i++)` loop of `DrawTicks`,
started at `i`. -/
def DrawTicks_loop {K : Type} [Field K] (M : Libm K) (xc yc radius : K) (i : ℕ) :
    List (CairoCall K) :=
  if i < 12 then
    let angle := HOURS_TO_RADIANS M i 0
    let x := xc + M.sin angle * (radius * (1.0 - CLOCK_SCALE))
    let y := yc + M.cos angle * (radius * (1.0 - CLOCK_SCALE))
    [CairoCall.move_to x y,
     CairoCall.arc x y (radius * CLOCK_SCALE) 0 (2 * M.G_PI),
     CairoCall.close_path] ++ DrawTicks_loop M xc yc radius (i + 1)
  else []
termination_by 12 - i

/-- Lines 132-150: `DrawTicks`. -/
def DrawTicks {K : Type} [Field K] (M : Libm K) (xc yc radius : K) : List (CairoCall K) :=
  DrawTicks_loop M xc yc radius 0 ++ [CairoCall.fill]

/-- Lines 152-182: `DrawPointer`. -/
def DrawPointer {K : Type} [Field K] (M : Libm K) (xc yc radius angle scale : K)
    (line : Bool) : List (CairoCall K) :=
  let xt := xc + M.sin angle * radius * scale
  let yt := yc + M.cos angle * radius * scale
  if line then
    [CairoCall.move_to xc yc, CairoCall.line_to xt yt, CairoCall.stroke]
  else
    let xs := xc + M.sin (angle - 0.5 * M.G_PI) * radius * CLOCK_SCALE
    let ys := yc + M.cos (angle - 0.5 * M.G_PI) * radius * CLOCK_SCALE
    [CairoCall.move_to xs ys,
     CairoCall.arc xc yc (radius * CLOCK_SCALE) (-angle + M.G_PI) (-angle),
     CairoCall.line_to xt yt,
     CairoCall.close_path,
     CairoCall.fill]

/-! ## Plugin state (`clock.c` lines 62-104) -/

/-- The configurable parameters the model needs (lines 62-74). -/
structure param_t where
  timezone : String
  title : String
deriving DecidableEq, Repr

/-- Lines 82-92: the label widgets of the monitor, each represented by the
text it shows. -/
structure monitor_t where
  wTitle : String
  wDay : String
  wDate : String
  wTime : String
deriving DecidableEq, Repr

/-- Lines 94-104: `analog_clock_t`. -/
structure analog_clock_t where
  iTimerId : ℕ
  oParam : param_t
  oMonitor : monitor_t
  day : ℕ
  month : ℕ
  hr : ℕ
  min : ℕ
deriving DecidableEq, Repr

/-- The fields of the `GDateTime` returned by `g_date_time_new_now(clock->tz)`
that `draw_area_cb` reads through the glib getters. -/
structure GDateTime where
  hour : ℕ
  minute : ℕ
  day_of_month : ℕ
  month : ℕ
  day_of_week : ℕ
deriving DecidableEq, Repr

/-- The label widgets of `monitor_t`. -/
inductive Label
  | wTitle
  | wDay
  | wDate
  | wTime
deriving DecidableEq, Repr

/-- A call `gtk_label_set_text(label, text)`. -/
structure GtkCall where
  label : Label
  text : String
deriving DecidableEq, Repr

/-- The effect of `gtk_label_set_text` on the shown texts. -/
def gtk_label_set_text (m : monitor_t) (l : Label) (s : String) : monitor_t :=
  match l with
  | Label.wTitle => { m with wTitle := s }
  | Label.wDay => { m with wDay := s }
  | Label.wDate => { m with wDate := s }
  | Label.wTime => { m with wTime := s }

/-! ## `g_snprintf` with the formats of lines 223 and 233 -/

/-- The conversion `%d` applied to a `guint` argument: the 32-bit value read
as a signed `int`. -/
def fmt_d (v : ℕ) : List Char :=
  if v % 2 ^ 32 < 2 ^ 31 then Nat.toDigits 10 (v % 2 ^ 32)
  else '-' :: Nat.toDigits 10 (2 ^ 32 - v % 2 ^ 32)

/-- The conversion `%02d`: padded with a zero up to the width 2. -/
def fmt_02d (v : ℕ) : List Char :=
  let s := fmt_d v
  if s.length < 2 then '0' :: s else s

/-- The call `g_snprintf(buf, n, ...)` keeps at most `n - 1` characters of
the formatted output. -/
def g_snprintf (n : ℕ) (out : List Char) : String :=
  String.mk (out.take (n - 1))

/-- The two-digit zero-padded decimal of the specification. -/
def two_digits (n : ℕ) : String :=
  String.mk [Nat.digitChar (n / 10), Nat.digitChar (n % 10)]

/-- The zero-padded `HH:MM` of the specification. -/
def HH_MM (h m : ℕ) : String := two_digits h ++ ":" ++ two_digits m

/-- The zero-padded `DD/MM` of the specification. -/
def DD_MM (d m : ℕ) : String := two_digits d ++ "/" ++ two_digits m

/-! ## The redraw handler (`clock.c` lines 184-241) -/

/-- The observable outcome of a piece of `draw_area_cb`: the GTK calls it
issued, in order, and the plugin state it leaves. -/
structure LabelResult where
  gtk : List GtkCall
  clock : analog_clock_t
deriving DecidableEq, Repr

/-- Lines 222-227: the time label. -/
def update_time_label (clock : analog_clock_t) (hr min : ℕ) : LabelResult :=
  if clock.hr ≠ hr ∨ clock.min ≠ min then
    let time := g_snprintf 6 (fmt_02d hr ++ [':'] ++ fmt_02d min)
    { gtk := [⟨Label.wTime, time⟩],
      clock := { clock with
        oMonitor := gtk_label_set_text clock.oMonitor Label.wTime time,
        hr := hr,
        min := min } }
  else
    { gtk := [], clock := clock }

/-- Lines 229-238: the weekday and date labels. -/
def update_date_labels (clock : analog_clock_t) (day month day_of_week : ℕ) : LabelResult :=
  if clock.day ≠ day then
    let weekday := GetWeekdayAsString day_of_week
    let date := g_snprintf 6 (fmt_02d day ++ ['/'] ++ fmt_02d month)
    { gtk := [⟨Label.wDay, weekday⟩, ⟨Label.wDate, date⟩],
      clock := { clock with
        oMonitor :=
          gtk_label_set_text (gtk_label_set_text clock.oMonitor Label.wDay weekday)
            Label.wDate date,
        day := day,
        month := month } }
  else
    { gtk := [], clock := clock }

/-- Lines 222-238: the label-update step of `draw_area_cb`, the time label
first and the weekday and date labels after it. -/
def label_update (clock : analog_clock_t) (date_time : GDateTime) : LabelResult :=
  let r1 := update_time_label clock date_time.hour date_time.minute
  let r2 := update_date_labels r1.clock date_time.day_of_month date_time.month
    date_time.day_of_week
  { gtk := r1.gtk ++ r2.gtk, clock := r2.clock }

/-- The outcome of one call of `draw_area_cb`: the cairo calls, the GTK calls
and the plugin state. -/
structure DrawResult (K : Type) where
  cr : List (CairoCall K)
  gtk : List GtkCall
  clock : analog_clock_t

/-- Lines 184-241: `draw_area_cb`.  The arguments `w` and `h` are the
allocated width and height of the drawing area, `date_time` is the sample
taken at line 208.  The halves `w / 2` and `h / 2` are C integer divisions,
converted to `gdouble` afterwards. -/
def draw_area_cb {K : Type} [LinearOrderedField K] (M : Libm K) (w h : ℤ)
    (date_time : GDateTime) (clock : analog_clock_t) : DrawResult K :=
  let xc : K := ((Int.tdiv w 2 : ℤ) : K)
  let yc : K := ((Int.tdiv h 2 : ℤ) : K)
  let radius : K := if xc < yc then xc else yc
  let ticks := DrawTicks M xc yc radius
  let hr := date_time.hour
  let min := date_time.minute
  let minute_pointer := DrawPointer M xc yc radius (TICKS_TO_RADIANS M min) 0.8 false
  let hour_pointer := DrawPointer M xc yc radius (HOURS_TO_RADIANS M hr min) 0.5 false
  let labels := label_update clock date_time
  { cr := ticks ++ minute_pointer ++ hour_pointer,
    gtk := labels.gtk,
    clock := labels.clock }

/-! ## Construction and the refresh timer -/

/-- Lines 338-468: the plugin state `clock_create_control` builds. -/
def clock_create_control : analog_clock_t :=
  { iTimerId := 0,
    oParam := { timezone := "UTC", title := "Title" },
    oMonitor :=
      { wTitle := "Title",
        wDay := GetWeekdayAsString 0,
        wDate := "00/00",
        wTime := "00:00" },
    day := 0,
    month := 0,
    hr := 0,
    min := 0 }

/-- The part of the glib main context and of GTK the refresh cycle acts on:
the ids of the active timeout sources that call `SetTimer` on this plugin,
the last source id the context handed out, and the number of redraws
requested with `gtk_widget_queue_draw`. -/
structure GMainContext where
  sources : List ℕ
  last_id : ℕ
  draws_queued : ℕ
deriving DecidableEq, Repr

/-- The call `g_timeout_add`: a new active source with a fresh positive id. -/
def g_timeout_add (ctx : GMainContext) : ℕ × GMainContext :=
  (ctx.last_id + 1,
   { ctx with sources := ctx.sources ++ [ctx.last_id + 1], last_id := ctx.last_id + 1 })

/-- The call `g_source_remove`: the source with that id is no longer active. -/
def g_source_remove (ctx : GMainContext) (id : ℕ) : GMainContext :=
  { ctx with sources := ctx.sources.filter (fun s => s ≠ id) }

/-- The plugin together with the main context it runs in. -/
structure World where
  ctx : GMainContext
  clock : analog_clock_t
deriving DecidableEq, Repr

/-- Lines 127-130: `DisplayClock` requests a redraw. -/
def DisplayClock (w : World) : World :=
  { w with ctx := { w.ctx with draws_queued := w.ctx.draws_queued + 1 } }

/-- Lines 243-254: `SetTimer`; the boolean is its return value. -/
def SetTimer (w : World) : Bool × World :=
  let w1 := DisplayClock w
  if w1.clock.iTimerId = 0 then
    let r := g_timeout_add w1.ctx
    (false, { ctx := r.2, clock := { w1.clock with iTimerId := r.1 } })
  else
    (true, w1)

/-- Lines 256-265: `SetTitle`. -/
def SetTitle (w : World) : World :=
  { w with clock := { w.clock with
      oMonitor := gtk_label_set_text w.clock.oMonitor Label.wTitle w.clock.oParam.title } }

/-- Lines 267-276: `SetTimezone`; the zone handle is not part of the state,
the redraw request is. -/
def SetTimezone (w : World) : World := DisplayClock w

/-- Lines 620-640: `UpdateConf`.  The font and visibility setters do not act
on the modelled state. -/
def UpdateConf (w : World) : World :=
  let w1 : World :=
    if w.clock.iTimerId ≠ 0 then
      { ctx := g_source_remove w.ctx w.clock.iTimerId,
        clock := { w.clock with iTimerId := 0 } }
    else w
  let w2 := (SetTimer w1).2
  let w3 := SetTitle w2
  SetTimezone w3

/-- Lines 975-999: `clock_construct`, in a main context that has handed out
the ids up to `last_id` and holds no source of this plugin.  The call of
`clock_read_config` in between only replaces configuration parameters (fonts,
title, time zone, visibility flags) and is left out. -/
def clock_construct (last_id : ℕ) : World :=
  UpdateConf
    { ctx := { sources := [], last_id := last_id, draws_queued := 0 },
      clock := clock_create_control }

/-- Lines 470-485: `clock_free`; what is left is the main context. -/
def clock_free (w : World) : GMainContext :=
  if w.clock.iTimerId ≠ 0 then g_source_remove w.ctx w.clock.iTimerId else w.ctx

/-- The main loop dispatches the active timeout source `s`: it calls
`SetTimer`, and destroys the source when the callback returns `FALSE`. -/
def dispatch (s : ℕ) (w : World) : World :=
  let r := SetTimer w
  if r.1 then r.2 else { r.2 with ctx := g_source_remove r.2.ctx s }

/-- The events of the refresh cycle: a configuration restart and a tick of
the timeout source `s`. -/
inductive Event
  | UpdateConf
  | tick (s : ℕ)
deriving DecidableEq, Repr

/-- One event; a tick of a source that is not active does not happen. -/
def step (w : World) : Event → World
  | Event.UpdateConf => UpdateConf w
  | Event.tick s => if s ∈ w.ctx.sources then dispatch s w else w

/-- A sequence of events, in order. -/
def run (w : World) (events : List Event) : World := events.foldl step w

/-- The ranges of the sample fields: hour 0..23, minute 0..59, day of month
1..31, month 1..12, day of week 1..7. -/
def GDateTime.in_range (dt : GDateTime) : Prop :=
  dt.hour ≤ 23 ∧ dt.minute ≤ 59 ∧ (1 ≤ dt.day_of_month ∧ dt.day_of_month ≤ 31) ∧
    (1 ≤ dt.month ∧ dt.month ≤ 12) ∧ (1 ≤ dt.day_of_week ∧ dt.day_of_week ≤ 7)

instance (dt : GDateTime) : Decidable dt.in_range := by
  unfold GDateTime.in_range
  infer_instance

/-- The label-update steps of a sequence of redraws, one sample each. -/
def label_updates (clock : analog_clock_t) (samples : List GDateTime) : analog_clock_t :=
  samples.foldl (fun c dt => (label_update c dt).clock) clock

/-- The center of tick `i` as the specification words it: at the distance
`0.9 * r` from the face center, along the angle `π − (π/6)·i`. -/
def tick_center_spec {K : Type} [Field K] (M : Libm K) (xc yc r : K) (i : ℕ) : K × K :=
  (xc + M.sin (M.G_PI - (M.G_PI / 6) * (i : K)) * (0.9 * r),
   yc + M.cos (M.G_PI - (M.G_PI / 6) * (i : K)) * (0.9 * r))

/-- The path of tick `i` as the specification words it: a full disc of radius
`0.1 * r` around the tick center. -/
def tick_spec {K : Type} [Field K] (M : Libm K) (xc yc r : K) (i : ℕ) : List (CairoCall K) :=
  [CairoCall.move_to (tick_center_spec M xc yc r i).1 (tick_center_spec M xc yc r i).2,
   CairoCall.arc (tick_center_spec M xc yc r i).1 (tick_center_spec M xc yc r i).2
     (0.1 * r) 0 (2 * M.G_PI),
   CairoCall.close_path]

/-- Lines 199-203 of `draw_area_cb`: the face center `(xc, yc)` and the
radius, from the allocated width and height.  The halves are C integer
divisions, which truncate. -/
def face_geometry {K : Type} [LinearOrderedField K] (w h : ℤ) : K × K × K :=
  let xc : K := ((Int.tdiv w 2 : ℤ) : K)
  let yc : K := ((Int.tdiv h 2 : ℤ) : K)
  let radius : K := if xc < yc then xc else yc
  (xc, yc, radius)

/-- The face geometry as the specification words it: the center
`(width/2, height/2)` and the radius `min(width, height)/2`, exact halves. -/
def face_geometry_spec {K : Type} [LinearOrderedField K] (w h : ℤ) : K × K × K :=
  ((w : K) / 2, (h : K) / 2, ((min w h : ℤ) : K) / 2)

/-- Two consecutive samples agree as calendar dates: when the day of month is
the same, so are the month and the day of week. -/
def GDateTime.same_day_same_date (a b : GDateTime) : Prop :=
  a.day_of_month = b.day_of_month → a.month = b.month ∧ a.day_of_week = b.day_of_week

instance (a b : GDateTime) : Decidable (GDateTime.same_day_same_date a b) := by
  unfold GDateTime.same_day_same_date
  infer_instance

/-- The point at the angle `angle` of the circle of radius `radius` around
`(xc, yc)`, in the convention of `cairo_arc`:
`(xc + radius·cos(angle), yc + radius·sin(angle))`. -/
def cairo_arc_point {K : Type} [Field K] (M : Libm K) (xc yc radius angle : K) : K × K :=
  (xc + radius * M.cos angle, yc + radius * M.sin angle)

/-- The points a cairo call puts on the path lie within the distance `r` of
`(xc, yc)`: the end point of a move-to or of a line-to, and every point of the
closed disc of the radius of an arc around the center of that arc. -/
def CairoCall.inside (xc yc r : ℝ) : CairoCall ℝ → Prop
  | CairoCall.move_to x y => Real.sqrt ((x - xc) ^ 2 + (y - yc) ^ 2) ≤ r
  | CairoCall.line_to x y => Real.sqrt ((x - xc) ^ 2 + (y - yc) ^ 2) ≤ r
  | CairoCall.arc cx cy radius _ _ =>
    ∀ px py : ℝ, Real.sqrt ((px - cx) ^ 2 + (py - cy) ^ 2) ≤ radius →
      Real.sqrt ((px - xc) ^ 2 + (py - yc) ^ 2) ≤ r
  | CairoCall.close_path => True
  | CairoCall.fill => True
  | CairoCall.stroke => True

/-! ## Theorems -/

/-- HOURS_TO_RADIANS folds an hour above 12 and leaves the others. -/
theorem hours_fold_cast (h : ℕ) (hh : h ≤ 23) :
    (((if h > 12 then h - 12 else h : ℕ) : ℝ)) =
      ((h % 12 : ℕ) : ℝ) + (if h = 12 then 12 else 0) := by
  interval_cases h <;> norm_num

/-- C1 (counterexample): at 12:00 the macro gives `π - 2π`, the formula of
the claim gives `π`; the two real numbers differ. -/
theorem C1_counterexample :
    HOURS_TO_RADIANS ⟨Real.pi, Real.sin, Real.cos⟩ 12 0 ≠ hour_angle_spec Real.pi 12 0 := by
  have hpi := Real.pi_pos
  simp only [HOURS_TO_RADIANS, hour_angle_spec]
  norm_num
  intro h
  nlinarith

/-- C1 (amended): for every hour h in [0,23] and minute m in [0,59] the angle
HOURS_TO_RADIANS(h, m) equals `π − (π/6)·((h mod 12) + m/60)` exactly when
h ≠ 12, and equals that value minus a full turn `2π` when h = 12. -/
theorem C1_hours_to_radians (h m : ℕ) (hh : h ≤ 23) (_hm : m ≤ 59) :
    HOURS_TO_RADIANS ⟨Real.pi, Real.sin, Real.cos⟩ h m =
      hour_angle_spec Real.pi h m - (if h = 12 then 2 * Real.pi else 0) := by
  simp only [HOURS_TO_RADIANS, hour_angle_spec]
  rw [hours_fold_cast h hh]
  split_ifs <;> ring

/-- C1 (witness): the amended statement at 12:30 and at 15:45. -/
theorem C1_hours_to_radians_witness :
    (12 ≤ 23 ∧ 30 ≤ 59 ∧
      HOURS_TO_RADIANS ⟨Real.pi, Real.sin, Real.cos⟩ 12 30 =
        hour_angle_spec Real.pi 12 30 - (if 12 = 12 then 2 * Real.pi else 0)) :=
  ⟨by decide, by decide, C1_hours_to_radians 12 30 (by decide) (by decide)⟩

/-- C2: GetWeekdayAsString returns the seven day names for 1..7 and "---"
for every other input. -/
theorem C2_weekday_table :
    GetWeekdayAsString 1 = "Mon" ∧ GetWeekdayAsString 2 = "Tue" ∧
    GetWeekdayAsString 3 = "Wed" ∧ GetWeekdayAsString 4 = "Thu" ∧
    GetWeekdayAsString 5 = "Fri" ∧ GetWeekdayAsString 6 = "Sat" ∧
    GetWeekdayAsString 7 = "Sun" ∧
    ∀ d : ℕ, (d = 0 ∨ 7 < d) → GetWeekdayAsString d = "---" := by
  refine ⟨rfl, rfl, rfl, rfl, rfl, rfl, rfl, ?_⟩
  intro d hd
  match d, hd with
  | 0, _ => rfl
  | n + 8, _ => rfl
  | 1, h | 2, h | 3, h | 4, h | 5, h | 6, h | 7, h => omega

/-! ### The formatted labels -/

/-- Below 100 the conversion `%02d` gives the two decimal digits. -/
theorem fmt_02d_two_digits : ∀ n < 100,
    fmt_02d n = [Nat.digitChar (n / 10), Nat.digitChar (n % 10)] := by
  decide

/-- The time buffer holds `HH:MM` untruncated when both fields are below 100. -/
theorem snprintf_time (h m : ℕ) (hh : h < 100) (hm : m < 100) :
    g_snprintf 6 (fmt_02d h ++ [':'] ++ fmt_02d m) = HH_MM h m := by
  rw [fmt_02d_two_digits h hh, fmt_02d_two_digits m hm]
  rfl

/-- The date buffer holds `DD/MM` untruncated when both fields are below 100. -/
theorem snprintf_date (d m : ℕ) (hd : d < 100) (hm : m < 100) :
    g_snprintf 6 (fmt_02d d ++ ['/'] ++ fmt_02d m) = DD_MM d m := by
  rw [fmt_02d_two_digits d hd, fmt_02d_two_digits m hm]
  rfl

/-- The strings `HH:MM` have five characters. -/
theorem HH_MM_length (h m : ℕ) : (HH_MM h m).length = 5 := rfl

/-- The strings `DD/MM` have five characters. -/
theorem DD_MM_length (d m : ℕ) : (DD_MM d m).length = 5 := rfl

/-- Lines 222-227 when the hour or the minute changed. -/
theorem update_time_label_changed (clock : analog_clock_t) (hr min : ℕ)
    (h : clock.hr ≠ hr ∨ clock.min ≠ min) :
    update_time_label clock hr min =
      { gtk := [⟨Label.wTime, g_snprintf 6 (fmt_02d hr ++ [':'] ++ fmt_02d min)⟩],
        clock := { clock with
          oMonitor := { clock.oMonitor with
            wTime := g_snprintf 6 (fmt_02d hr ++ [':'] ++ fmt_02d min) },
          hr := hr,
          min := min } } := by
  unfold update_time_label
  rw [if_pos h]
  rfl

/-- Lines 222-227 when neither the hour nor the minute changed. -/
theorem update_time_label_same (clock : analog_clock_t) (hr min : ℕ)
    (h1 : clock.hr = hr) (h2 : clock.min = min) :
    update_time_label clock hr min = { gtk := [], clock := clock } := by
  unfold update_time_label
  rw [if_neg (by simp [h1, h2])]

/-- Lines 229-238 when the day changed. -/
theorem update_date_labels_changed (clock : analog_clock_t) (day month dow : ℕ)
    (h : clock.day ≠ day) :
    update_date_labels clock day month dow =
      { gtk := [⟨Label.wDay, GetWeekdayAsString dow⟩,
                ⟨Label.wDate, g_snprintf 6 (fmt_02d day ++ ['/'] ++ fmt_02d month)⟩],
        clock := { clock with
          oMonitor := { clock.oMonitor with
            wDay := GetWeekdayAsString dow,
            wDate := g_snprintf 6 (fmt_02d day ++ ['/'] ++ fmt_02d month) },
          day := day,
          month := month } } := by
  unfold update_date_labels
  rw [if_pos h]
  rfl

/-- Lines 229-238 when the day did not change. -/
theorem update_date_labels_same (clock : analog_clock_t) (day month dow : ℕ)
    (h : clock.day = day) :
    update_date_labels clock day month dow = { gtk := [], clock := clock } := by
  unfold update_date_labels
  rw [if_neg (by simp [h])]

/-- The time-label step leaves the day alone. -/
theorem update_time_label_day (clock : analog_clock_t) (hr min : ℕ) :
    (update_time_label clock hr min).clock.day = clock.day := by
  unfold update_time_label
  split_ifs <;> rfl

/-! ### The label-update step -/

/-- The GTK calls of the label-update step: those of the time label, then
those of the weekday and date labels. -/
theorem label_update_gtk (clock : analog_clock_t) (dt : GDateTime) :
    (label_update clock dt).gtk =
      (update_time_label clock dt.hour dt.minute).gtk ++
        (update_date_labels (update_time_label clock dt.hour dt.minute).clock
          dt.day_of_month dt.month dt.day_of_week).gtk := rfl

/-- The state the label-update step leaves. -/
theorem label_update_clock (clock : analog_clock_t) (dt : GDateTime) :
    (label_update clock dt).clock =
      (update_date_labels (update_time_label clock dt.hour dt.minute).clock
        dt.day_of_month dt.month dt.day_of_week).clock := rfl

/-- C3: when the sample's (hour, minute), in range, differs from
(lastHour, lastMinute), the label-update step writes the time label exactly
once, with the five characters HH:MM of the sample (the 6-byte buffer does
not truncate them), and sets lastHour and lastMinute to the sample's hour
and minute; from 23:59 the sample 00:00 gives the label "00:00". -/
theorem C3_time_label_rewritten (clock : analog_clock_t) (dt : GDateTime)
    (hh : dt.hour ≤ 23) (hm : dt.minute ≤ 59)
    (hne : (dt.hour, dt.minute) ≠ (clock.hr, clock.min)) :
    (label_update clock dt).gtk.filter (fun c => c.label = Label.wTime) =
        [⟨Label.wTime, HH_MM dt.hour dt.minute⟩] ∧
      (label_update clock dt).clock.oMonitor.wTime = HH_MM dt.hour dt.minute ∧
      (HH_MM dt.hour dt.minute).length = 5 ∧
      (label_update clock dt).clock.hr = dt.hour ∧
      (label_update clock dt).clock.min = dt.minute ∧
      (clock.hr = 23 → clock.min = 59 → dt.hour = 0 → dt.minute = 0 →
        (label_update clock dt).clock.oMonitor.wTime = "00:00") := by
  have hchg : clock.hr ≠ dt.hour ∨ clock.min ≠ dt.minute := by
    by_contra hcon
    push_neg at hcon
    exact hne (by rw [hcon.1, hcon.2])
  have hfmt := snprintf_time dt.hour dt.minute (by omega) (by omega)
  have hmain : (label_update clock dt).gtk.filter (fun c => c.label = Label.wTime) =
        [⟨Label.wTime, HH_MM dt.hour dt.minute⟩] ∧
      (label_update clock dt).clock.oMonitor.wTime = HH_MM dt.hour dt.minute ∧
      (label_update clock dt).clock.hr = dt.hour ∧
      (label_update clock dt).clock.min = dt.minute := by
    rw [label_update_gtk, label_update_clock, update_time_label_changed clock _ _ hchg, hfmt]
    unfold update_date_labels
    split_ifs <;> simp [gtk_label_set_text]
  refine ⟨hmain.1, hmain.2.1, rfl, hmain.2.2.1, hmain.2.2.2, ?_⟩
  intro _ _ h0 m0
  rw [hmain.2.1, h0, m0]
  rfl

/-- C3 (witness): from lastHour = 23, lastMinute = 59 the sample 00:00
rewrites the time label to "00:00". -/
theorem C3_time_label_rewritten_witness :
    (label_update { clock_create_control with hr := 23, min := 59, day := 28, month := 2 }
      ⟨0, 0, 1, 3, 5⟩).clock.oMonitor.wTime = "00:00" :=
  (C3_time_label_rewritten
    { clock_create_control with hr := 23, min := 59, day := 28, month := 2 }
    ⟨0, 0, 1, 3, 5⟩ (by decide) (by decide) (by decide)).2.2.2.2.2 rfl rfl rfl rfl

/-- C4: for a sample with day of month in [1,31] and month in [1,12] the
label-update step writes the weekday label and the date label if and only if
the day of month differs from lastDay; when it does, the weekday label is
GetWeekdayAsString(dayOfWeek), the date label is the five characters DD/MM of
the sample, and lastDay and lastMonth are the sample's; when it does not,
both labels and lastDay, lastMonth stay, whatever the month and the weekday
are.  With lastDay = 28 and day of month 1 both labels are written. -/
theorem C4_date_labels_rewritten (clock : analog_clock_t) (dt : GDateTime)
    (hd : 1 ≤ dt.day_of_month ∧ dt.day_of_month ≤ 31)
    (hmo : 1 ≤ dt.month ∧ dt.month ≤ 12) :
    (dt.day_of_month ≠ clock.day →
      (label_update clock dt).gtk.filter (fun c => c.label ≠ Label.wTime) =
          [⟨Label.wDay, GetWeekdayAsString dt.day_of_week⟩,
           ⟨Label.wDate, DD_MM dt.day_of_month dt.month⟩] ∧
        (label_update clock dt).clock.oMonitor.wDay = GetWeekdayAsString dt.day_of_week ∧
        (label_update clock dt).clock.oMonitor.wDate = DD_MM dt.day_of_month dt.month ∧
        (DD_MM dt.day_of_month dt.month).length = 5 ∧
        (label_update clock dt).clock.day = dt.day_of_month ∧
        (label_update clock dt).clock.month = dt.month) ∧
    (dt.day_of_month = clock.day →
      (label_update clock dt).gtk.filter (fun c => c.label ≠ Label.wTime) = [] ∧
        (label_update clock dt).clock.oMonitor.wDay = clock.oMonitor.wDay ∧
        (label_update clock dt).clock.oMonitor.wDate = clock.oMonitor.wDate ∧
        (label_update clock dt).clock.day = clock.day ∧
        (label_update clock dt).clock.month = clock.month) ∧
    (clock.day = 28 → dt.day_of_month = 1 →
      (∃ c ∈ (label_update clock dt).gtk, c.label = Label.wDay) ∧
      (∃ c ∈ (label_update clock dt).gtk, c.label = Label.wDate)) := by
  have hfmt := snprintf_date dt.day_of_month dt.month (by omega) (by omega)
  have hchanged : dt.day_of_month ≠ clock.day →
      (label_update clock dt).gtk.filter (fun c => c.label ≠ Label.wTime) =
          [⟨Label.wDay, GetWeekdayAsString dt.day_of_week⟩,
           ⟨Label.wDate, DD_MM dt.day_of_month dt.month⟩] ∧
        (label_update clock dt).clock.oMonitor.wDay = GetWeekdayAsString dt.day_of_week ∧
        (label_update clock dt).clock.oMonitor.wDate = DD_MM dt.day_of_month dt.month ∧
        (DD_MM dt.day_of_month dt.month).length = 5 ∧
        (label_update clock dt).clock.day = dt.day_of_month ∧
        (label_update clock dt).clock.month = dt.month := by
    intro hne
    have hne1 : (update_time_label clock dt.hour dt.minute).clock.day ≠ dt.day_of_month := by
      rw [update_time_label_day]
      exact fun h => hne h.symm
    rw [label_update_gtk, label_update_clock, update_date_labels_changed _ _ _ _ hne1, hfmt]
    refine ⟨?_, rfl, rfl, rfl, rfl, rfl⟩
    unfold update_time_label
    split_ifs <;> simp
  refine ⟨hchanged, ?_, ?_⟩
  · intro heq
    have heq1 : (update_time_label clock dt.hour dt.minute).clock.day = dt.day_of_month := by
      rw [update_time_label_day]
      exact heq.symm
    rw [label_update_gtk, label_update_clock, update_date_labels_same _ _ _ _ heq1]
    unfold update_time_label
    split_ifs <;> simp [gtk_label_set_text]
  · intro h28 h1
    have hne : dt.day_of_month ≠ clock.day := by omega
    have hlist := (hchanged hne).1
    have hmem : ∀ c, c ∈ (label_update clock dt).gtk.filter (fun c => c.label ≠ Label.wTime) →
        c ∈ (label_update clock dt).gtk := fun c hc => (List.mem_filter.mp hc).1
    rw [hlist] at hmem
    exact ⟨⟨_, hmem ⟨Label.wDay, GetWeekdayAsString dt.day_of_week⟩ (by simp), rfl⟩,
      ⟨_, hmem ⟨Label.wDate, DD_MM dt.day_of_month dt.month⟩ (by simp), rfl⟩⟩

/-- C4 (witness): lastDay = 28 and a sample of the 1st of March rewrite the
weekday and the date label. -/
theorem C4_date_labels_rewritten_witness :
    (∃ c ∈ (label_update { clock_create_control with hr := 23, min := 59, day := 28, month := 2 }
        ⟨0, 0, 1, 3, 5⟩).gtk, c.label = Label.wDay) ∧
    (∃ c ∈ (label_update { clock_create_control with hr := 23, min := 59, day := 28, month := 2 }
        ⟨0, 0, 1, 3, 5⟩).gtk, c.label = Label.wDate) :=
  (C4_date_labels_rewritten
    { clock_create_control with hr := 23, min := 59, day := 28, month := 2 }
    ⟨0, 0, 1, 3, 5⟩ (by decide) (by decide)).2.2 rfl rfl

/-- After a label-update step the last-seen hour, minute and day are the
sample's. -/
theorem label_update_last_seen (clock : analog_clock_t) (dt : GDateTime) :
    (label_update clock dt).clock.hr = dt.hour ∧
      (label_update clock dt).clock.min = dt.minute ∧
      (label_update clock dt).clock.day = dt.day_of_month := by
  rw [label_update_clock]
  unfold update_date_labels update_time_label
  split_ifs <;> simp_all

/-- C5: a second label-update step with the same sample issues no
`gtk_label_set_text` call and leaves the last-seen fields and all label texts
as the first step left them, for every state and every sample. -/
theorem C5_label_update_idempotent (clock : analog_clock_t) (dt : GDateTime) :
    (label_update (label_update clock dt).clock dt).gtk = [] ∧
      (label_update (label_update clock dt).clock dt).clock = (label_update clock dt).clock := by
  obtain ⟨h1, h2, h3⟩ := label_update_last_seen clock dt
  have ht := update_time_label_same (label_update clock dt).clock dt.hour dt.minute h1 h2
  have hd := update_date_labels_same (label_update clock dt).clock dt.day_of_month dt.month
    dt.day_of_week h3
  constructor
  · rw [label_update_gtk (label_update clock dt).clock dt, ht, hd]
    rfl
  · rw [label_update_clock (label_update clock dt).clock dt, ht, hd]

/-- One label-update step on an in-range sample keeps the time label equal to
HH:MM of the last-seen hour and minute, and the date label equal to DD/MM of
the last-seen day and month. -/
theorem label_update_keeps_sync (clock : analog_clock_t) (dt : GDateTime)
    (hr : dt.in_range)
    (hsync : clock.oMonitor.wTime = HH_MM clock.hr clock.min ∧
      clock.oMonitor.wDate = DD_MM clock.day clock.month) :
    (label_update clock dt).clock.oMonitor.wTime =
        HH_MM (label_update clock dt).clock.hr (label_update clock dt).clock.min ∧
      (label_update clock dt).clock.oMonitor.wDate =
        DD_MM (label_update clock dt).clock.day (label_update clock dt).clock.month := by
  obtain ⟨hh, hm, hd, hmo, _⟩ := hr
  have ht := snprintf_time dt.hour dt.minute (by omega) (by omega)
  have hdt := snprintf_date dt.day_of_month dt.month (by omega) (by omega)
  rw [label_update_clock]
  unfold update_date_labels update_time_label
  split_ifs <;> simp_all [gtk_label_set_text]

/-- C6: a label-update step that issues no call on the time label leaves
lastHour, lastMinute and the time text as they were, one that issues a call
sets them to the sample's hour and minute and to the text of the call; the
same holds for the weekday/date labels and lastDay, lastMonth.  Hence after
any sequence of label-update steps on in-range samples, from the freshly
created widget, the time label is HH:MM of (lastHour, lastMinute) and the
date label is DD/MM of (lastDay, lastMonth). -/
theorem C6_state_and_text_synchronized (samples : List GDateTime)
    (hs : ∀ dt ∈ samples, dt.in_range) :
    ((label_updates clock_create_control samples).oMonitor.wTime =
        HH_MM (label_updates clock_create_control samples).hr
          (label_updates clock_create_control samples).min ∧
      (label_updates clock_create_control samples).oMonitor.wDate =
        DD_MM (label_updates clock_create_control samples).day
          (label_updates clock_create_control samples).month) ∧
    (∀ (clock : analog_clock_t) (dt : GDateTime),
      ((¬ ∃ c ∈ (label_update clock dt).gtk, c.label = Label.wTime) →
        (label_update clock dt).clock.hr = clock.hr ∧
        (label_update clock dt).clock.min = clock.min ∧
        (label_update clock dt).clock.oMonitor.wTime = clock.oMonitor.wTime) ∧
      (∀ c ∈ (label_update clock dt).gtk, c.label = Label.wTime →
        (label_update clock dt).clock.hr = dt.hour ∧
        (label_update clock dt).clock.min = dt.minute ∧
        (label_update clock dt).clock.oMonitor.wTime = c.text) ∧
      ((¬ ∃ c ∈ (label_update clock dt).gtk, c.label = Label.wDate) →
        (label_update clock dt).clock.day = clock.day ∧
        (label_update clock dt).clock.month = clock.month ∧
        (label_update clock dt).clock.oMonitor.wDate = clock.oMonitor.wDate ∧
        (label_update clock dt).clock.oMonitor.wDay = clock.oMonitor.wDay) ∧
      (∀ c ∈ (label_update clock dt).gtk, c.label = Label.wDate →
        (label_update clock dt).clock.day = dt.day_of_month ∧
        (label_update clock dt).clock.month = dt.month ∧
        (label_update clock dt).clock.oMonitor.wDate = c.text)) := by
  constructor
  · have key : ∀ (l : List GDateTime) (c : analog_clock_t),
        (∀ dt ∈ l, dt.in_range) →
        (c.oMonitor.wTime = HH_MM c.hr c.min ∧ c.oMonitor.wDate = DD_MM c.day c.month) →
        ((label_updates c l).oMonitor.wTime = HH_MM (label_updates c l).hr (label_updates c l).min ∧
          (label_updates c l).oMonitor.wDate =
            DD_MM (label_updates c l).day (label_updates c l).month) := by
      intro l
      induction l with
      | nil => intro c _ hc; exact hc
      | cons dt rest ih =>
        intro c hl hc
        have hstep := label_update_keeps_sync c dt (hl dt (List.mem_cons_self dt rest)) hc
        exact ih (label_update c dt).clock
          (fun d hd => hl d (List.mem_cons_of_mem dt hd)) hstep
    exact key samples clock_create_control hs ⟨rfl, rfl⟩
  · intro clock dt
    rw [label_update_gtk, label_update_clock]
    unfold update_date_labels update_time_label
    split_ifs <;> simp_all [gtk_label_set_text]

/-- C6 (witness): the labels after the samples 23:59 of 28/02 and 00:00 of
01/03. -/
theorem C6_state_and_text_synchronized_witness :
    (label_updates clock_create_control [⟨23, 59, 28, 2, 1⟩, ⟨0, 0, 1, 3, 2⟩]).oMonitor.wTime =
        HH_MM (label_updates clock_create_control [⟨23, 59, 28, 2, 1⟩, ⟨0, 0, 1, 3, 2⟩]).hr
          (label_updates clock_create_control [⟨23, 59, 28, 2, 1⟩, ⟨0, 0, 1, 3, 2⟩]).min ∧
      (label_updates clock_create_control [⟨23, 59, 28, 2, 1⟩, ⟨0, 0, 1, 3, 2⟩]).oMonitor.wDate =
        DD_MM (label_updates clock_create_control [⟨23, 59, 28, 2, 1⟩, ⟨0, 0, 1, 3, 2⟩]).day
          (label_updates clock_create_control [⟨23, 59, 28, 2, 1⟩, ⟨0, 0, 1, 3, 2⟩]).month :=
  (C6_state_and_text_synchronized [⟨23, 59, 28, 2, 1⟩, ⟨0, 0, 1, 3, 2⟩] (by decide)).1

/-! ### The face -/

/-- One round of the loop of `DrawTicks`. -/
theorem DrawTicks_loop_step {K : Type} [Field K] (M : Libm K) (xc yc radius : K) (i : ℕ)
    (h : i < 12) :
    DrawTicks_loop M xc yc radius i =
      [CairoCall.move_to
          (xc + M.sin (HOURS_TO_RADIANS M i 0) * (radius * (1.0 - CLOCK_SCALE)))
          (yc + M.cos (HOURS_TO_RADIANS M i 0) * (radius * (1.0 - CLOCK_SCALE))),
        CairoCall.arc
          (xc + M.sin (HOURS_TO_RADIANS M i 0) * (radius * (1.0 - CLOCK_SCALE)))
          (yc + M.cos (HOURS_TO_RADIANS M i 0) * (radius * (1.0 - CLOCK_SCALE)))
          (radius * CLOCK_SCALE) 0 (2 * M.G_PI),
        CairoCall.close_path] ++ DrawTicks_loop M xc yc radius (i + 1) := by
  rw [DrawTicks_loop, if_pos h]

/-- The loop of `DrawTicks` ends at 12. -/
theorem DrawTicks_loop_done {K : Type} [Field K] (M : Libm K) (xc yc radius : K) (i : ℕ)
    (h : 12 ≤ i) : DrawTicks_loop M xc yc radius i = [] := by
  rw [DrawTicks_loop, if_neg (Nat.not_lt.mpr h)]

/-- Below 13 the macro HOURS_TO_RADIANS(i, 0) is `π − (π/6)·i`. -/
theorem hours_to_radians_tick (i : ℕ) (h : i ≤ 12) :
    HOURS_TO_RADIANS ⟨Real.pi, Real.sin, Real.cos⟩ i 0 = Real.pi - (Real.pi / 6) * (i : ℝ) := by
  unfold HOURS_TO_RADIANS
  rw [if_neg (by omega)]
  norm_num

/-- The loop of `DrawTicks` from `i` on draws the ticks `i`, ..., 11 of the
specification. -/
theorem DrawTicks_loop_spec (xc yc r : ℝ) :
    ∀ (n i : ℕ), i + n = 12 →
      DrawTicks_loop ⟨Real.pi, Real.sin, Real.cos⟩ xc yc r i =
        (List.range' i n).flatMap (tick_spec ⟨Real.pi, Real.sin, Real.cos⟩ xc yc r) := by
  intro n
  induction n with
  | zero =>
    intro i hi
    rw [DrawTicks_loop_done _ _ _ _ _ (by omega)]
    rfl
  | succ n ih =>
    intro i hi
    rw [DrawTicks_loop_step _ _ _ _ _ (by omega), ih (i + 1) (by omega), List.range'_succ,
      List.flatMap_cons, hours_to_radians_tick i (by omega)]
    have h09 : r * ((1.0 : ℝ) - 0.1) = 0.9 * r := by norm_num; ring
    have h01 : r * (0.1 : ℝ) = 0.1 * r := by ring
    simp only [tick_spec, tick_center_spec, CLOCK_SCALE]
    rw [h09, h01]

/-- C9: DrawTicks draws exactly the twelve ticks i = 0..11, tick i being the
disc of radius 0.1*r around (xc + sin(a_i)*0.9*r, yc + cos(a_i)*0.9*r) with
a_i = HOURS_TO_RADIANS(i, 0) = π − (π/6)·i; for r ≥ 0 that center is at the
Euclidean distance exactly 0.9*r from the face center; and the ticks that
draw_area_cb draws are the same for every sample and every plugin state. -/
theorem C9_ticks (xc yc r : ℝ) (hr : 0 ≤ r) :
    DrawTicks ⟨Real.pi, Real.sin, Real.cos⟩ xc yc r =
        (List.range 12).flatMap (tick_spec ⟨Real.pi, Real.sin, Real.cos⟩ xc yc r) ++
          [CairoCall.fill] ∧
      (∀ i < 12,
        HOURS_TO_RADIANS ⟨Real.pi, Real.sin, Real.cos⟩ i 0 =
            Real.pi - (Real.pi / 6) * (i : ℝ) ∧
          Real.sqrt
            (((tick_center_spec ⟨Real.pi, Real.sin, Real.cos⟩ xc yc r i).1 - xc) ^ 2 +
              ((tick_center_spec ⟨Real.pi, Real.sin, Real.cos⟩ xc yc r i).2 - yc) ^ 2) =
            0.9 * r) ∧
      (∀ (w h : ℤ) (dt1 dt2 : GDateTime) (c1 c2 : analog_clock_t),
        (draw_area_cb ⟨Real.pi, Real.sin, Real.cos⟩ w h dt1 c1).cr.take 37 =
            (draw_area_cb ⟨Real.pi, Real.sin, Real.cos⟩ w h dt2 c2).cr.take 37 ∧
          (draw_area_cb ⟨Real.pi, Real.sin, Real.cos⟩ w h dt1 c1).cr.take 37 =
            DrawTicks ⟨Real.pi, Real.sin, Real.cos⟩
              ((Int.tdiv w 2 : ℤ) : ℝ) ((Int.tdiv h 2 : ℤ) : ℝ)
              (if ((Int.tdiv w 2 : ℤ) : ℝ) < ((Int.tdiv h 2 : ℤ) : ℝ)
                then ((Int.tdiv w 2 : ℤ) : ℝ) else ((Int.tdiv h 2 : ℤ) : ℝ))) := by
  have hticks : ∀ (x y q : ℝ), DrawTicks ⟨Real.pi, Real.sin, Real.cos⟩ x y q =
      (List.range 12).flatMap (tick_spec ⟨Real.pi, Real.sin, Real.cos⟩ x y q) ++
        [CairoCall.fill] := by
    intro x y q
    rw [DrawTicks, DrawTicks_loop_spec x y q 12 0 rfl, List.range_eq_range']
  have hlen : ∀ (x y q : ℝ), (DrawTicks ⟨Real.pi, Real.sin, Real.cos⟩ x y q).length = 37 := by
    intro x y q
    rw [hticks]
    simp [List.range, List.range.loop, tick_spec]
  have htake : ∀ (w h : ℤ) (dt : GDateTime) (c : analog_clock_t),
      (draw_area_cb ⟨Real.pi, Real.sin, Real.cos⟩ w h dt c).cr.take 37 =
        DrawTicks ⟨Real.pi, Real.sin, Real.cos⟩
          ((Int.tdiv w 2 : ℤ) : ℝ) ((Int.tdiv h 2 : ℤ) : ℝ)
          (if ((Int.tdiv w 2 : ℤ) : ℝ) < ((Int.tdiv h 2 : ℤ) : ℝ)
            then ((Int.tdiv w 2 : ℤ) : ℝ) else ((Int.tdiv h 2 : ℤ) : ℝ)) := by
    intro w h dt c
    simp only [draw_area_cb, List.append_assoc]
    rw [List.take_append_of_le_length (by rw [hlen])]
    exact List.take_of_length_le (by rw [hlen])
  refine ⟨hticks xc yc r, ?_, ?_⟩
  · intro i hi
    refine ⟨hours_to_radians_tick i (by omega), ?_⟩
    simp only [tick_center_spec]
    have hsq : (xc + Real.sin (Real.pi - Real.pi / 6 * (i : ℝ)) * (0.9 * r) - xc) ^ 2 +
        (yc + Real.cos (Real.pi - Real.pi / 6 * (i : ℝ)) * (0.9 * r) - yc) ^ 2 =
        (0.9 * r) ^ 2 := by
      have h1 := Real.sin_sq_add_cos_sq (Real.pi - Real.pi / 6 * (i : ℝ))
      calc (xc + Real.sin (Real.pi - Real.pi / 6 * (i : ℝ)) * (0.9 * r) - xc) ^ 2 +
            (yc + Real.cos (Real.pi - Real.pi / 6 * (i : ℝ)) * (0.9 * r) - yc) ^ 2
          = (Real.sin (Real.pi - Real.pi / 6 * (i : ℝ)) ^ 2 +
              Real.cos (Real.pi - Real.pi / 6 * (i : ℝ)) ^ 2) * (0.9 * r) ^ 2 := by ring
        _ = (0.9 * r) ^ 2 := by rw [h1, one_mul]
    rw [hsq]
    exact Real.sqrt_sq (by positivity)
  · intro w h dt1 dt2 c1 c2
    exact ⟨(htake w h dt1 c1).trans (htake w h dt2 c2).symm, htake w h dt1 c1⟩

/-- C9 (witness): the ticks of the face of radius 50 around (50, 50). -/
theorem C9_ticks_witness :
    DrawTicks ⟨Real.pi, Real.sin, Real.cos⟩ 50 50 50 =
      (List.range 12).flatMap (tick_spec ⟨Real.pi, Real.sin, Real.cos⟩ 50 50 50) ++
        [CairoCall.fill] :=
  (C9_ticks 50 50 50 (by norm_num)).1

/-- C7: the cairo calls of draw_area_cb are the same for every two plugin
states, in particular for two that differ only in lastHour, lastMinute,
lastDay and lastMonth: they are the twelve ticks, the minute hand at the angle
TICKS_TO_RADIANS(minute) and the hour hand at the angle
HOURS_TO_RADIANS(hour, minute) of the current sample, whether or not a label
is rewritten. -/
theorem C7_face_independent_of_last_seen (w h : ℤ) (dt : GDateTime)
    (c1 c2 : analog_clock_t) :
    (draw_area_cb ⟨Real.pi, Real.sin, Real.cos⟩ w h dt c1).cr =
        (draw_area_cb ⟨Real.pi, Real.sin, Real.cos⟩ w h dt c2).cr ∧
      (draw_area_cb ⟨Real.pi, Real.sin, Real.cos⟩ w h dt c1).cr =
        DrawTicks ⟨Real.pi, Real.sin, Real.cos⟩
            ((Int.tdiv w 2 : ℤ) : ℝ) ((Int.tdiv h 2 : ℤ) : ℝ)
            (if ((Int.tdiv w 2 : ℤ) : ℝ) < ((Int.tdiv h 2 : ℤ) : ℝ)
              then ((Int.tdiv w 2 : ℤ) : ℝ) else ((Int.tdiv h 2 : ℤ) : ℝ)) ++
          DrawPointer ⟨Real.pi, Real.sin, Real.cos⟩
            ((Int.tdiv w 2 : ℤ) : ℝ) ((Int.tdiv h 2 : ℤ) : ℝ)
            (if ((Int.tdiv w 2 : ℤ) : ℝ) < ((Int.tdiv h 2 : ℤ) : ℝ)
              then ((Int.tdiv w 2 : ℤ) : ℝ) else ((Int.tdiv h 2 : ℤ) : ℝ))
            (TICKS_TO_RADIANS ⟨Real.pi, Real.sin, Real.cos⟩ dt.minute) 0.8 false ++
          DrawPointer ⟨Real.pi, Real.sin, Real.cos⟩
            ((Int.tdiv w 2 : ℤ) : ℝ) ((Int.tdiv h 2 : ℤ) : ℝ)
            (if ((Int.tdiv w 2 : ℤ) : ℝ) < ((Int.tdiv h 2 : ℤ) : ℝ)
              then ((Int.tdiv w 2 : ℤ) : ℝ) else ((Int.tdiv h 2 : ℤ) : ℝ))
            (HOURS_TO_RADIANS ⟨Real.pi, Real.sin, Real.cos⟩ dt.hour dt.minute) 0.5 false ∧
      (DrawTicks ⟨Real.pi, Real.sin, Real.cos⟩
            ((Int.tdiv w 2 : ℤ) : ℝ) ((Int.tdiv h 2 : ℤ) : ℝ)
            (if ((Int.tdiv w 2 : ℤ) : ℝ) < ((Int.tdiv h 2 : ℤ) : ℝ)
              then ((Int.tdiv w 2 : ℤ) : ℝ) else ((Int.tdiv h 2 : ℤ) : ℝ))).length =
        3 * 12 + 1 := by
  refine ⟨rfl, rfl, ?_⟩
  rw [DrawTicks, DrawTicks_loop_spec _ _ _ 12 0 rfl]
  simp [List.range', tick_spec]

/-- C10: from the freshly created state, the sample 03:30 of 15/06, a
Thursday, makes draw_area_cb draw the ticks, the minute hand at the angle
π − (π/30)·30 = 0 and the hour hand at the angle π − (π/6)·(3 + 1/2) =
π − 7π/12, and set the time label to "03:30", the weekday label to "Thu" and
the date label to "15/06". -/
theorem C10_end_to_end (w h : ℤ) :
    (draw_area_cb ⟨Real.pi, Real.sin, Real.cos⟩ w h ⟨3, 30, 15, 6, 4⟩ clock_create_control).cr =
        DrawTicks ⟨Real.pi, Real.sin, Real.cos⟩
            ((Int.tdiv w 2 : ℤ) : ℝ) ((Int.tdiv h 2 : ℤ) : ℝ)
            (if ((Int.tdiv w 2 : ℤ) : ℝ) < ((Int.tdiv h 2 : ℤ) : ℝ)
              then ((Int.tdiv w 2 : ℤ) : ℝ) else ((Int.tdiv h 2 : ℤ) : ℝ)) ++
          DrawPointer ⟨Real.pi, Real.sin, Real.cos⟩
            ((Int.tdiv w 2 : ℤ) : ℝ) ((Int.tdiv h 2 : ℤ) : ℝ)
            (if ((Int.tdiv w 2 : ℤ) : ℝ) < ((Int.tdiv h 2 : ℤ) : ℝ)
              then ((Int.tdiv w 2 : ℤ) : ℝ) else ((Int.tdiv h 2 : ℤ) : ℝ))
            0 0.8 false ++
          DrawPointer ⟨Real.pi, Real.sin, Real.cos⟩
            ((Int.tdiv w 2 : ℤ) : ℝ) ((Int.tdiv h 2 : ℤ) : ℝ)
            (if ((Int.tdiv w 2 : ℤ) : ℝ) < ((Int.tdiv h 2 : ℤ) : ℝ)
              then ((Int.tdiv w 2 : ℤ) : ℝ) else ((Int.tdiv h 2 : ℤ) : ℝ))
            (Real.pi - 7 * Real.pi / 12) 0.5 false ∧
      TICKS_TO_RADIANS ⟨Real.pi, Real.sin, Real.cos⟩ 30 = Real.pi - (Real.pi / 30) * 30 ∧
      Real.pi - (Real.pi / 30) * 30 = 0 ∧
      HOURS_TO_RADIANS ⟨Real.pi, Real.sin, Real.cos⟩ 3 30 =
        Real.pi - (Real.pi / 6) * (3 + 1 / 2) ∧
      Real.pi - (Real.pi / 6) * (3 + 1 / 2) = Real.pi - 7 * Real.pi / 12 ∧
      (draw_area_cb ⟨Real.pi, Real.sin, Real.cos⟩ w h ⟨3, 30, 15, 6, 4⟩
        clock_create_control).gtk =
        [⟨Label.wTime, "03:30"⟩, ⟨Label.wDay, "Thu"⟩, ⟨Label.wDate, "15/06"⟩] ∧
      (draw_area_cb ⟨Real.pi, Real.sin, Real.cos⟩ w h ⟨3, 30, 15, 6, 4⟩
        clock_create_control).clock.oMonitor.wTime = "03:30" ∧
      (draw_area_cb ⟨Real.pi, Real.sin, Real.cos⟩ w h ⟨3, 30, 15, 6, 4⟩
        clock_create_control).clock.oMonitor.wDay = "Thu" ∧
      (draw_area_cb ⟨Real.pi, Real.sin, Real.cos⟩ w h ⟨3, 30, 15, 6, 4⟩
        clock_create_control).clock.oMonitor.wDate = "15/06" := by
  have hmin : TICKS_TO_RADIANS ⟨Real.pi, Real.sin, Real.cos⟩ 30 = 0 := by
    unfold TICKS_TO_RADIANS
    norm_num
  have hhour : HOURS_TO_RADIANS ⟨Real.pi, Real.sin, Real.cos⟩ 3 30 =
      Real.pi - 7 * Real.pi / 12 := by
    unfold HOURS_TO_RADIANS
    norm_num
    ring
  have hlabels : label_update clock_create_control ⟨3, 30, 15, 6, 4⟩ =
      { gtk := [⟨Label.wTime, "03:30"⟩, ⟨Label.wDay, "Thu"⟩, ⟨Label.wDate, "15/06"⟩],
        clock := { clock_create_control with
          oMonitor := { wTitle := "Title", wDay := "Thu", wDate := "15/06", wTime := "03:30" },
          day := 15, month := 6, hr := 3, min := 30 } } := by
    decide
  refine ⟨?_, ?_, by ring, ?_, by ring, ?_, ?_, ?_, ?_⟩
  · simp only [draw_area_cb]
    rw [hmin, hhour]
  · rw [hmin]
    ring
  · rw [hhour]
    ring
  · simp only [draw_area_cb]
    rw [hlabels]
  · simp only [draw_area_cb]
    rw [hlabels]
  · simp only [draw_area_cb]
    rw [hlabels]
  · simp only [draw_area_cb]
    rw [hlabels]

/-! ### The refresh timer -/

/-- After `UpdateConf` the only active source is a new one, recorded in
`iTimerId`, provided the sources before were the recorded one or none. -/
theorem UpdateConf_arms (w : World)
    (hinv : (w.clock.iTimerId = 0 ∧ w.ctx.sources = []) ∨
      (w.clock.iTimerId ≠ 0 ∧ w.ctx.sources = [w.clock.iTimerId])) :
    (UpdateConf w).clock.iTimerId ≠ 0 ∧
      (UpdateConf w).ctx.sources = [(UpdateConf w).clock.iTimerId] := by
  rcases hinv with ⟨h0, hs⟩ | ⟨h0, hs⟩
  · simp [UpdateConf, SetTimer, SetTitle, SetTimezone, DisplayClock, g_timeout_add, h0, hs]
  · simp [UpdateConf, SetTimer, SetTitle, SetTimezone, DisplayClock, g_timeout_add,
      g_source_remove, h0, hs]

/-- A tick of the recorded source keeps it, and nothing else, active. -/
theorem dispatch_keeps (s : ℕ) (w : World)
    (h0 : w.clock.iTimerId ≠ 0) (hs : w.ctx.sources = [w.clock.iTimerId]) :
    (dispatch s w).clock.iTimerId ≠ 0 ∧
      (dispatch s w).ctx.sources = [(dispatch s w).clock.iTimerId] := by
  simp [dispatch, SetTimer, DisplayClock, h0, hs]

/-- Every event keeps the timer armed with exactly the recorded source. -/
theorem step_keeps_armed (w : World) (e : Event)
    (h0 : w.clock.iTimerId ≠ 0) (hs : w.ctx.sources = [w.clock.iTimerId]) :
    (step w e).clock.iTimerId ≠ 0 ∧ (step w e).ctx.sources = [(step w e).clock.iTimerId] := by
  cases e with
  | UpdateConf => exact UpdateConf_arms w (Or.inr ⟨h0, hs⟩)
  | tick s =>
    by_cases hmem : s ∈ w.ctx.sources
    · have heq : step w (Event.tick s) = dispatch s w := if_pos hmem
      rw [heq]
      exact dispatch_keeps s w h0 hs
    · have heq : step w (Event.tick s) = w := if_neg hmem
      rw [heq]
      exact ⟨h0, hs⟩

/-- Every sequence of events keeps the timer armed with exactly the recorded
source. -/
theorem run_keeps_armed (events : List Event) :
    ∀ w : World, w.clock.iTimerId ≠ 0 → w.ctx.sources = [w.clock.iTimerId] →
      (run w events).clock.iTimerId ≠ 0 ∧
        (run w events).ctx.sources = [(run w events).clock.iTimerId] := by
  induction events with
  | nil => intro w h0 hs; exact ⟨h0, hs⟩
  | cons e rest ih =>
    intro w h0 hs
    have hstep := step_keeps_armed w e h0 hs
    exact ih (step w e) hstep.1 hstep.2

/-- C8: in every state reached after construction by UpdateConf events and
timer ticks, the plugin has at most one active timeout source, that source is
the one recorded in iTimerId (which is not 0), and after clock_free no source
of the plugin is active. -/
theorem C8_at_most_one_timer (last_id : ℕ) (events : List Event) :
    (run (clock_construct last_id) events).ctx.sources.length ≤ 1 ∧
      (∀ s ∈ (run (clock_construct last_id) events).ctx.sources,
        s = (run (clock_construct last_id) events).clock.iTimerId) ∧
      (run (clock_construct last_id) events).ctx.sources =
        [(run (clock_construct last_id) events).clock.iTimerId] ∧
      (run (clock_construct last_id) events).clock.iTimerId ≠ 0 ∧
      (clock_free (run (clock_construct last_id) events)).sources = [] := by
  have hinit := UpdateConf_arms
    { ctx := { sources := [], last_id := last_id, draws_queued := 0 },
      clock := clock_create_control } (Or.inl ⟨rfl, rfl⟩)
  have hrun := run_keeps_armed events (clock_construct last_id) hinit.1 hinit.2
  refine ⟨?_, ?_, hrun.2, hrun.1, ?_⟩
  · rw [hrun.2]
    simp
  · intro s hs
    rw [hrun.2] at hs
    simpa using hs
  · unfold clock_free
    rw [if_pos hrun.1]
    unfold g_source_remove
    rw [hrun.2]
    simp

/-! ### The canvas -/

/-- The cairo calls of `draw_area_cb` are those of the ticks and the two
hands on the face of `face_geometry`. -/
theorem draw_area_cb_cr (w h : ℤ) (dt : GDateTime) (clock : analog_clock_t) :
    (draw_area_cb ⟨Real.pi, Real.sin, Real.cos⟩ w h dt clock).cr =
      DrawTicks ⟨Real.pi, Real.sin, Real.cos⟩ (face_geometry w h : ℝ × ℝ × ℝ).1
          (face_geometry w h : ℝ × ℝ × ℝ).2.1 (face_geometry w h : ℝ × ℝ × ℝ).2.2 ++
        DrawPointer ⟨Real.pi, Real.sin, Real.cos⟩ (face_geometry w h : ℝ × ℝ × ℝ).1
          (face_geometry w h : ℝ × ℝ × ℝ).2.1 (face_geometry w h : ℝ × ℝ × ℝ).2.2
          (TICKS_TO_RADIANS ⟨Real.pi, Real.sin, Real.cos⟩ dt.minute) 0.8 false ++
        DrawPointer ⟨Real.pi, Real.sin, Real.cos⟩ (face_geometry w h : ℝ × ℝ × ℝ).1
          (face_geometry w h : ℝ × ℝ × ℝ).2.1 (face_geometry w h : ℝ × ℝ × ℝ).2.2
          (HOURS_TO_RADIANS ⟨Real.pi, Real.sin, Real.cos⟩ dt.hour dt.minute) 0.5 false := rfl

/-- On a non-negative canvas the face geometry is made of the integer halves
rounded down. -/
theorem face_geometry_floor (w h : ℤ) (hw : 0 ≤ w) (hh : 0 ≤ h) :
    (face_geometry w h : ℝ × ℝ × ℝ) =
      (((w / 2 : ℤ) : ℝ), ((h / 2 : ℤ) : ℝ), ((min w h / 2 : ℤ) : ℝ)) := by
  have h1 : Int.tdiv w 2 = w / 2 := Int.tdiv_eq_ediv hw (by norm_num)
  have h2 : Int.tdiv h 2 = h / 2 := Int.tdiv_eq_ediv hh (by norm_num)
  unfold face_geometry
  simp only [h1, h2]
  refine Prod.ext rfl (Prod.ext rfl ?_)
  show (if ((w / 2 : ℤ) : ℝ) < ((h / 2 : ℤ) : ℝ) then ((w / 2 : ℤ) : ℝ)
    else ((h / 2 : ℤ) : ℝ)) = ((min w h / 2 : ℤ) : ℝ)
  by_cases hlt : w / 2 < h / 2
  · have hwh : w ≤ h := by omega
    rw [if_pos (by exact_mod_cast hlt), min_eq_left hwh]
  · have hle : h / 2 ≤ w / 2 := not_lt.mp hlt
    rw [if_neg (by exact_mod_cast hlt)]
    rcases le_total w h with hwh | hwh
    · rw [min_eq_left hwh]
      have : w / 2 = h / 2 := by omega
      rw [this]
    · rw [min_eq_right hwh]

/-- C11 (counterexample): on a 3 x 3 canvas draw_area_cb draws the face of
center (1, 1) and radius 1, not the one of center (3/2, 3/2) and radius 3/2. -/
theorem C11_counterexample :
    (face_geometry 3 3 : ℝ × ℝ × ℝ) ≠ face_geometry_spec 3 3 ∧
      (face_geometry 3 3 : ℝ × ℝ × ℝ) = (1, 1, 1) ∧
      (face_geometry_spec 3 3 : ℝ × ℝ × ℝ) = (3 / 2, 3 / 2, 3 / 2) ∧
      (draw_area_cb ⟨Real.pi, Real.sin, Real.cos⟩ 3 3 ⟨10, 10, 1, 1, 1⟩
          clock_create_control).cr =
        DrawTicks ⟨Real.pi, Real.sin, Real.cos⟩ 1 1 1 ++
          DrawPointer ⟨Real.pi, Real.sin, Real.cos⟩ 1 1 1
            (TICKS_TO_RADIANS ⟨Real.pi, Real.sin, Real.cos⟩ 10) 0.8 false ++
          DrawPointer ⟨Real.pi, Real.sin, Real.cos⟩ 1 1 1
            (HOURS_TO_RADIANS ⟨Real.pi, Real.sin, Real.cos⟩ 10 10) 0.5 false := by
  have hg : (face_geometry 3 3 : ℝ × ℝ × ℝ) = (1, 1, 1) := by
    have h3 : Int.tdiv 3 2 = 1 := rfl
    unfold face_geometry
    simp [h3]
  have hs : (face_geometry_spec 3 3 : ℝ × ℝ × ℝ) = (3 / 2, 3 / 2, 3 / 2) := by
    unfold face_geometry_spec
    norm_num
  refine ⟨?_, hg, hs, ?_⟩
  · rw [hg, hs]
    intro heq
    have h1 := congrArg Prod.fst heq
    norm_num at h1
  · rw [draw_area_cb_cr, hg]

/-- C11 (amended): for every canvas with non-negative integer width w and
height h, draw_area_cb draws on the face of center (⌊w/2⌋, ⌊h/2⌋) and radius
⌊min(w, h)/2⌋, the halves of the C integer division; they are the exact
rational halves when w and h are even. -/
theorem C11_face_geometry (w h : ℤ) (hw : 0 ≤ w) (hh : 0 ≤ h) (dt : GDateTime)
    (clock : analog_clock_t) :
    (draw_area_cb ⟨Real.pi, Real.sin, Real.cos⟩ w h dt clock).cr =
        DrawTicks ⟨Real.pi, Real.sin, Real.cos⟩
            ((w / 2 : ℤ) : ℝ) ((h / 2 : ℤ) : ℝ) ((min w h / 2 : ℤ) : ℝ) ++
          DrawPointer ⟨Real.pi, Real.sin, Real.cos⟩
            ((w / 2 : ℤ) : ℝ) ((h / 2 : ℤ) : ℝ) ((min w h / 2 : ℤ) : ℝ)
            (TICKS_TO_RADIANS ⟨Real.pi, Real.sin, Real.cos⟩ dt.minute) 0.8 false ++
          DrawPointer ⟨Real.pi, Real.sin, Real.cos⟩
            ((w / 2 : ℤ) : ℝ) ((h / 2 : ℤ) : ℝ) ((min w h / 2 : ℤ) : ℝ)
            (HOURS_TO_RADIANS ⟨Real.pi, Real.sin, Real.cos⟩ dt.hour dt.minute) 0.5 false ∧
      (face_geometry w h : ℝ × ℝ × ℝ) =
        (((w / 2 : ℤ) : ℝ), ((h / 2 : ℤ) : ℝ), ((min w h / 2 : ℤ) : ℝ)) ∧
      (w % 2 = 0 → h % 2 = 0 →
        (face_geometry w h : ℝ × ℝ × ℝ) = face_geometry_spec w h) := by
  have hfloor := face_geometry_floor w h hw hh
  refine ⟨?_, hfloor, ?_⟩
  · rw [draw_area_cb_cr, hfloor]
  · intro hw2 hh2
    rw [hfloor]
    unfold face_geometry_spec
    have e1 : w = 2 * (w / 2) := by omega
    have e2 : h = 2 * (h / 2) := by omega
    have e3 : min w h = 2 * (min w h / 2) := by
      rcases le_total w h with hwh | hwh
      · rw [min_eq_left hwh]; exact e1
      · rw [min_eq_right hwh]; exact e2
    have c1 : (w : ℝ) = 2 * ((w / 2 : ℤ) : ℝ) := by exact_mod_cast e1
    have c2 : (h : ℝ) = 2 * ((h / 2 : ℤ) : ℝ) := by exact_mod_cast e2
    have c3 : ((min w h : ℤ) : ℝ) = 2 * ((min w h / 2 : ℤ) : ℝ) := by exact_mod_cast e3
    refine Prod.ext ?_ (Prod.ext ?_ ?_)
    · show ((w / 2 : ℤ) : ℝ) = (w : ℝ) / 2
      linarith
    · show ((h / 2 : ℤ) : ℝ) = (h : ℝ) / 2
      linarith
    · show ((min w h / 2 : ℤ) : ℝ) = ((min w h : ℤ) : ℝ) / 2
      linarith

/-- C11 (witness): the 5 x 8 canvas. -/
theorem C11_face_geometry_witness :
    (face_geometry 5 8 : ℝ × ℝ × ℝ) =
      ((((5 : ℤ) / 2 : ℤ) : ℝ), (((8 : ℤ) / 2 : ℤ) : ℝ), ((min (5 : ℤ) 8 / 2 : ℤ) : ℝ)) :=
  (C11_face_geometry 5 8 (by decide) (by decide) ⟨10, 10, 1, 1, 1⟩ clock_create_control).2.1

/-- The C quotient `w / 2` in terms of the floor quotient: it rounds toward
zero. -/
theorem tdiv_two (w : ℤ) :
    (0 ≤ w → Int.tdiv w 2 = w / 2) ∧ (w < 0 → Int.tdiv w 2 = -((-w) / 2)) := by
  constructor
  · intro hw
    exact Int.tdiv_eq_ediv hw (by norm_num)
  · intro hw
    have h1 : Int.tdiv (-w) 2 = (-w) / 2 := Int.tdiv_eq_ediv (by omega) (by norm_num)
    rw [← h1, ← Int.neg_tdiv, neg_neg]

/-- The radius of `face_geometry` is the smaller of the two C half
dimensions. -/
theorem face_geometry_radius (w h : ℤ) :
    (face_geometry w h : ℝ × ℝ × ℝ).2.2 = ((min (Int.tdiv w 2) (Int.tdiv h 2) : ℤ) : ℝ) := by
  show (if ((Int.tdiv w 2 : ℤ) : ℝ) < ((Int.tdiv h 2 : ℤ) : ℝ) then ((Int.tdiv w 2 : ℤ) : ℝ)
    else ((Int.tdiv h 2 : ℤ) : ℝ)) = ((min (Int.tdiv w 2) (Int.tdiv h 2) : ℤ) : ℝ)
  by_cases hlt : Int.tdiv w 2 < Int.tdiv h 2
  · rw [if_pos (by exact_mod_cast hlt), min_eq_left (le_of_lt hlt)]
  · rw [if_neg (by exact_mod_cast hlt), min_eq_right (not_lt.mp hlt)]

/-- With the radius 0 the ticks are twelve empty discs at the center. -/
theorem DrawTicks_radius_zero (xc yc : ℝ) :
    DrawTicks ⟨Real.pi, Real.sin, Real.cos⟩ xc yc 0 =
      (List.range 12).flatMap
          (fun _ => [CairoCall.move_to xc yc, CairoCall.arc xc yc 0 0 (2 * Real.pi),
            CairoCall.close_path]) ++
        [CairoCall.fill] := by
  rw [DrawTicks, DrawTicks_loop_spec xc yc 0 12 0 rfl, List.range_eq_range']
  have hbody : tick_spec ⟨Real.pi, Real.sin, Real.cos⟩ xc yc 0 =
      fun _ => [CairoCall.move_to xc yc, CairoCall.arc xc yc 0 0 (2 * Real.pi),
        CairoCall.close_path] := by
    funext i
    simp [tick_spec, tick_center_spec]
  rw [hbody]

/-- With the radius 0 a hand is an empty path at the center. -/
theorem DrawPointer_radius_zero (xc yc angle scale : ℝ) :
    DrawPointer ⟨Real.pi, Real.sin, Real.cos⟩ xc yc 0 angle scale false =
      [CairoCall.move_to xc yc, CairoCall.arc xc yc 0 (-angle + Real.pi) (-angle),
        CairoCall.line_to xc yc, CairoCall.close_path, CairoCall.fill] := by
  simp [DrawPointer]

/-- C12 (counterexample): on a canvas of width and height -4 the radius
draw_area_cb computes is -2, not 0, and at minute 15 the tip of the minute
hand is (-18/5, -2), away from the center (-2, -2). -/
theorem C12_counterexample :
    (face_geometry (-4) (-4) : ℝ × ℝ × ℝ) = (-2, -2, -2) ∧
      (face_geometry (-4) (-4) : ℝ × ℝ × ℝ).2.2 ≠ 0 ∧
      CairoCall.line_to (-18 / 5 : ℝ) (-2) ∈
        (draw_area_cb ⟨Real.pi, Real.sin, Real.cos⟩ (-4) (-4) ⟨10, 15, 1, 1, 1⟩
          clock_create_control).cr := by
  have hg : (face_geometry (-4) (-4) : ℝ × ℝ × ℝ) = (-2, -2, -2) := by
    have h4 : Int.tdiv (-4) 2 = -2 := rfl
    unfold face_geometry
    simp [h4]
  have hang : TICKS_TO_RADIANS ⟨Real.pi, Real.sin, Real.cos⟩ 15 = Real.pi / 2 := by
    unfold TICKS_TO_RADIANS
    norm_num
    ring
  refine ⟨hg, ?_, ?_⟩
  · rw [hg]
    norm_num
  · rw [draw_area_cb_cr, hg, hang]
    have htip : CairoCall.line_to (-18 / 5 : ℝ) (-2) ∈
        DrawPointer ⟨Real.pi, Real.sin, Real.cos⟩ (-2) (-2) (-2) (Real.pi / 2) 0.8 false := by
      have hx : (-2 : ℝ) + Real.sin (Real.pi / 2) * (-2) * 0.8 = -18 / 5 := by
        rw [Real.sin_pi_div_two]
        norm_num
      have hy : (-2 : ℝ) + Real.cos (Real.pi / 2) * (-2) * 0.8 = -2 := by
        rw [Real.cos_pi_div_two]
        norm_num
      simp only [DrawPointer]
      rw [hx, hy]
      simp
    exact List.mem_append_left _ (List.mem_append_right _ htip)

/-- C12 (amended): for every canvas whose width or height is zero or
negative, and neither is below -1, the radius draw_area_cb computes is
exactly 0: every tick, every hand start point and every hand tip is at the
face center, the discs and base circles have the radius 0, and the calls are
issued as on any other canvas (there is no error path).  A width or height of
-2 or less gives a negative radius. -/
theorem C12_degenerate_canvas (w h : ℤ) (hdeg : w ≤ 0 ∨ h ≤ 0) (hw : -1 ≤ w) (hh : -1 ≤ h)
    (dt : GDateTime) (clock : analog_clock_t) :
    (face_geometry w h : ℝ × ℝ × ℝ).2.2 = 0 ∧
      (draw_area_cb ⟨Real.pi, Real.sin, Real.cos⟩ w h dt clock).cr =
        ((List.range 12).flatMap
            (fun _ =>
              [CairoCall.move_to (face_geometry w h : ℝ × ℝ × ℝ).1
                  (face_geometry w h : ℝ × ℝ × ℝ).2.1,
                CairoCall.arc (face_geometry w h : ℝ × ℝ × ℝ).1
                  (face_geometry w h : ℝ × ℝ × ℝ).2.1 0 0 (2 * Real.pi),
                CairoCall.close_path]) ++
          [CairoCall.fill]) ++
        [CairoCall.move_to (face_geometry w h : ℝ × ℝ × ℝ).1
            (face_geometry w h : ℝ × ℝ × ℝ).2.1,
          CairoCall.arc (face_geometry w h : ℝ × ℝ × ℝ).1
            (face_geometry w h : ℝ × ℝ × ℝ).2.1 0
            (-TICKS_TO_RADIANS ⟨Real.pi, Real.sin, Real.cos⟩ dt.minute + Real.pi)
            (-TICKS_TO_RADIANS ⟨Real.pi, Real.sin, Real.cos⟩ dt.minute),
          CairoCall.line_to (face_geometry w h : ℝ × ℝ × ℝ).1
            (face_geometry w h : ℝ × ℝ × ℝ).2.1,
          CairoCall.close_path, CairoCall.fill] ++
        [CairoCall.move_to (face_geometry w h : ℝ × ℝ × ℝ).1
            (face_geometry w h : ℝ × ℝ × ℝ).2.1,
          CairoCall.arc (face_geometry w h : ℝ × ℝ × ℝ).1
            (face_geometry w h : ℝ × ℝ × ℝ).2.1 0
            (-HOURS_TO_RADIANS ⟨Real.pi, Real.sin, Real.cos⟩ dt.hour dt.minute + Real.pi)
            (-HOURS_TO_RADIANS ⟨Real.pi, Real.sin, Real.cos⟩ dt.hour dt.minute),
          CairoCall.line_to (face_geometry w h : ℝ × ℝ × ℝ).1
            (face_geometry w h : ℝ × ℝ × ℝ).2.1,
          CairoCall.close_path, CairoCall.fill] ∧
      (∀ w2 h2 : ℤ, (w2 ≤ -2 ∨ h2 ≤ -2) → (face_geometry w2 h2 : ℝ × ℝ × ℝ).2.2 < 0) := by
  have hrad : (face_geometry w h : ℝ × ℝ × ℝ).2.2 = 0 := by
    rw [face_geometry_radius]
    have hmin : min (Int.tdiv w 2) (Int.tdiv h 2) = 0 := by
      have aw := tdiv_two w
      have ah := tdiv_two h
      rcases le_total (Int.tdiv w 2) (Int.tdiv h 2) with hle | hle
      · rw [min_eq_left hle]
        by_cases h0w : 0 ≤ w <;> by_cases h0h : 0 ≤ h <;> omega
      · rw [min_eq_right hle]
        by_cases h0w : 0 ≤ w <;> by_cases h0h : 0 ≤ h <;> omega
    rw [hmin]
    norm_num
  refine ⟨hrad, ?_, ?_⟩
  · rw [draw_area_cb_cr, hrad, DrawTicks_radius_zero, DrawPointer_radius_zero,
      DrawPointer_radius_zero]
  · intro w2 h2 hneg
    rw [face_geometry_radius]
    have aw := tdiv_two w2
    have ah := tdiv_two h2
    have hmin : min (Int.tdiv w2 2) (Int.tdiv h2 2) < 0 := by
      rcases le_total (Int.tdiv w2 2) (Int.tdiv h2 2) with hle | hle
      · rw [min_eq_left hle]
        by_cases h0w : 0 ≤ w2 <;> by_cases h0h : 0 ≤ h2 <;> omega
      · rw [min_eq_right hle]
        by_cases h0w : 0 ≤ w2 <;> by_cases h0h : 0 ≤ h2 <;> omega
    exact_mod_cast hmin

/-- C12 (witness): the canvas of width 0 and height 7 has the radius 0. -/
theorem C12_degenerate_canvas_witness :
    (face_geometry 0 7 : ℝ × ℝ × ℝ).2.2 = 0 :=
  (C12_degenerate_canvas 0 7 (Or.inl (by decide)) (by decide) (by decide)
    ⟨10, 15, 1, 1, 1⟩ clock_create_control).1

/-! ### The labels over a sequence of redraws -/

/-- C14 (counterexample): from the freshly created state the sample 00:00 of
01/01 issues no call on the time label. -/
theorem C14_counterexample :
    (⟨0, 0, 1, 1, 4⟩ : GDateTime).in_range ∧
      (label_update clock_create_control ⟨0, 0, 1, 1, 4⟩).gtk.filter
        (fun c => c.label = Label.wTime) = [] ∧
      (label_update clock_create_control ⟨0, 0, 1, 1, 4⟩).gtk =
        [⟨Label.wDay, "Thu"⟩, ⟨Label.wDate, "01/01"⟩] := by
  decide

/-- C14 (amended): from the freshly created state, for every first sample
with hour in [0,23], minute in [0,59], day of month in [1,31] and month in
[1,12], the first label-update step rewrites the weekday and date labels, and
it rewrites the time label unless the sample is 00:00; at 00:00 it issues no
call on the time label, which keeps its initial text "00:00". -/
theorem C14_first_sample (dt : GDateTime) (hh : dt.hour ≤ 23) (hm : dt.minute ≤ 59)
    (hd : 1 ≤ dt.day_of_month ∧ dt.day_of_month ≤ 31)
    (hmo : 1 ≤ dt.month ∧ dt.month ≤ 12) :
    (label_update clock_create_control dt).gtk.filter (fun c => c.label ≠ Label.wTime) =
        [⟨Label.wDay, GetWeekdayAsString dt.day_of_week⟩,
         ⟨Label.wDate, DD_MM dt.day_of_month dt.month⟩] ∧
      ((dt.hour ≠ 0 ∨ dt.minute ≠ 0) →
        (label_update clock_create_control dt).gtk.filter (fun c => c.label = Label.wTime) =
          [⟨Label.wTime, HH_MM dt.hour dt.minute⟩]) ∧
      ((dt.hour = 0 ∧ dt.minute = 0) →
        (label_update clock_create_control dt).gtk.filter (fun c => c.label = Label.wTime) =
            [] ∧
          (label_update clock_create_control dt).clock.oMonitor.wTime = "00:00" ∧
          HH_MM dt.hour dt.minute = "00:00") := by
  have hfd := snprintf_date dt.day_of_month dt.month (by omega) (by omega)
  have hft := snprintf_time dt.hour dt.minute (by omega) (by omega)
  have hday : (update_time_label clock_create_control dt.hour dt.minute).clock.day ≠
      dt.day_of_month := by
    rw [update_time_label_day]
    have h0 : clock_create_control.day = 0 := rfl
    omega
  refine ⟨?_, ?_, ?_⟩
  · rw [label_update_gtk, update_date_labels_changed _ _ _ _ hday, hfd]
    unfold update_time_label
    split_ifs <;> simp
  · intro hne
    have hchg : clock_create_control.hr ≠ dt.hour ∨ clock_create_control.min ≠ dt.minute := by
      have h0 : clock_create_control.hr = 0 := rfl
      have m0 : clock_create_control.min = 0 := rfl
      omega
    rw [label_update_gtk, update_date_labels_changed _ _ _ _ hday,
      update_time_label_changed _ _ _ hchg, hft]
    simp
  · intro h00
    have hsame := update_time_label_same clock_create_control dt.hour dt.minute
      h00.1.symm h00.2.symm
    refine ⟨?_, ?_, ?_⟩
    · rw [label_update_gtk, update_date_labels_changed _ _ _ _ hday, hsame]
      simp
    · rw [label_update_clock, update_date_labels_changed _ _ _ _ hday, hsame]
      rfl
    · rw [h00.1, h00.2]
      rfl

/-- C14 (witness): the first sample 03:30 of 15/06 rewrites the weekday and
date labels. -/
theorem C14_first_sample_witness :
    (label_update clock_create_control ⟨3, 30, 15, 6, 4⟩).gtk.filter
        (fun c => c.label ≠ Label.wTime) =
      [⟨Label.wDay, GetWeekdayAsString 4⟩, ⟨Label.wDate, DD_MM 15 6⟩] :=
  (C14_first_sample ⟨3, 30, 15, 6, 4⟩ (by decide) (by decide) (by decide) (by decide)).1

/-- A label-update step on an in-range sample whose day of month differs from
the last-seen day leaves the weekday and date labels showing the sample. -/
theorem label_update_shows_new_day (c : analog_clock_t) (dt : GDateTime)
    (hr : dt.in_range) (hne : c.day ≠ dt.day_of_month) :
    (label_update c dt).clock.day = dt.day_of_month ∧
      (label_update c dt).clock.oMonitor.wDate = DD_MM dt.day_of_month dt.month ∧
      (label_update c dt).clock.oMonitor.wDay = GetWeekdayAsString dt.day_of_week := by
  obtain ⟨_, _, hd, hmo, _⟩ := hr
  have hfd := snprintf_date dt.day_of_month dt.month (by omega) (by omega)
  have hday : (update_time_label c dt.hour dt.minute).clock.day ≠ dt.day_of_month := by
    rw [update_time_label_day]
    exact hne
  rw [label_update_clock, update_date_labels_changed _ _ _ _ hday, hfd]
  exact ⟨rfl, rfl, rfl⟩

/-- A label-update step keeps the weekday and date labels showing the current
sample, when they showed the previous sample and the two samples agree as
calendar dates. -/
theorem label_update_shows_sample (c : analog_clock_t) (prev dt : GDateTime)
    (hr : dt.in_range) (hrel : prev.same_day_same_date dt)
    (hprev : c.day = prev.day_of_month ∧
      c.oMonitor.wDate = DD_MM prev.day_of_month prev.month ∧
      c.oMonitor.wDay = GetWeekdayAsString prev.day_of_week) :
    (label_update c dt).clock.day = dt.day_of_month ∧
      (label_update c dt).clock.oMonitor.wDate = DD_MM dt.day_of_month dt.month ∧
      (label_update c dt).clock.oMonitor.wDay = GetWeekdayAsString dt.day_of_week := by
  by_cases hne : c.day = dt.day_of_month
  · have hpd : prev.day_of_month = dt.day_of_month := by rw [← hprev.1]; exact hne
    obtain ⟨hm, hw⟩ := hrel hpd
    have hday : (update_time_label c dt.hour dt.minute).clock.day = dt.day_of_month := by
      rw [update_time_label_day]
      exact hne
    rw [label_update_clock, update_date_labels_same _ _ _ _ hday]
    have hmon : (update_time_label c dt.hour dt.minute).clock.oMonitor.wDate =
          c.oMonitor.wDate ∧
        (update_time_label c dt.hour dt.minute).clock.oMonitor.wDay = c.oMonitor.wDay := by
      unfold update_time_label
      split_ifs <;> simp [gtk_label_set_text]
    refine ⟨hday, ?_, ?_⟩
    · show (update_time_label c dt.hour dt.minute).clock.oMonitor.wDate = _
      rw [hmon.1, hprev.2.1, hpd, hm]
    · show (update_time_label c dt.hour dt.minute).clock.oMonitor.wDay = _
      rw [hmon.2, hprev.2.2, hw]
  · exact label_update_shows_new_day c dt hr hne

/-- The weekday and date labels keep showing the current sample along a
sequence of samples that agree, each with the next, as calendar dates. -/
theorem label_updates_show_last (dt : GDateTime) :
    ∀ (l : List GDateTime) (c : analog_clock_t) (prev : GDateTime),
      (c.day = prev.day_of_month ∧
        c.oMonitor.wDate = DD_MM prev.day_of_month prev.month ∧
        c.oMonitor.wDay = GetWeekdayAsString prev.day_of_week) →
      List.Chain GDateTime.same_day_same_date prev (l ++ [dt]) →
      (∀ s ∈ l ++ [dt], s.in_range) →
      (label_updates c (l ++ [dt])).oMonitor.wDate = DD_MM dt.day_of_month dt.month ∧
        (label_updates c (l ++ [dt])).oMonitor.wDay = GetWeekdayAsString dt.day_of_week := by
  intro l
  induction l with
  | nil =>
    intro c prev hprev hchain hin
    have hrel : prev.same_day_same_date dt := by
      simpa using hchain
    have hstep := label_update_shows_sample c prev dt (hin dt (by simp)) hrel hprev
    exact ⟨hstep.2.1, hstep.2.2⟩
  | cons a rest ih =>
    intro c prev hprev hchain hin
    have hc2 : prev.same_day_same_date a ∧
        List.Chain GDateTime.same_day_same_date a (rest ++ [dt]) := by
      simpa using hchain
    have hstep := label_update_shows_sample c prev a (hin a (by simp)) hc2.1 hprev
    exact ih (label_update c a).clock a hstep hc2.2
      (fun s hs => hin s (List.mem_cons_of_mem a hs))

/-- C13 (counterexample): the in-range samples 10:00 of 15/06 (a Monday) and
10:00 of 15/07 (a Wednesday), one redraw each from the freshly created widget,
leave the date label at "15/06" and the weekday label at "Mon". -/
theorem C13_counterexample :
    (∀ s ∈ [(⟨10, 0, 15, 6, 1⟩ : GDateTime), ⟨10, 0, 15, 7, 3⟩], s.in_range) ∧
      (label_updates clock_create_control
        [⟨10, 0, 15, 6, 1⟩, ⟨10, 0, 15, 7, 3⟩]).oMonitor.wDate = "15/06" ∧
      (label_updates clock_create_control
        [⟨10, 0, 15, 6, 1⟩, ⟨10, 0, 15, 7, 3⟩]).oMonitor.wDate ≠ DD_MM 15 7 ∧
      (label_updates clock_create_control
        [⟨10, 0, 15, 6, 1⟩, ⟨10, 0, 15, 7, 3⟩]).oMonitor.wDay = "Mon" ∧
      (label_updates clock_create_control
        [⟨10, 0, 15, 6, 1⟩, ⟨10, 0, 15, 7, 3⟩]).oMonitor.wDay ≠ GetWeekdayAsString 3 := by
  decide

/-- C13 (amended): in every state reached from the freshly created widget by
a sequence of redraws on in-range samples in which a sample with the same day
of month as the sample before it also has the same month and day of week,
immediately after a redraw the date label is DD/MM of the sample of that
redraw and the weekday label is GetWeekdayAsString of its day of week.  The
state a redraw leaves is the one of its label-update step. -/
theorem C13_date_labels_current (samples : List GDateTime) (dt : GDateTime)
    (hin : ∀ s ∈ samples ++ [dt], s.in_range)
    (hchain : List.Chain' GDateTime.same_day_same_date (samples ++ [dt])) :
    (label_updates clock_create_control (samples ++ [dt])).oMonitor.wDate =
        DD_MM dt.day_of_month dt.month ∧
      (label_updates clock_create_control (samples ++ [dt])).oMonitor.wDay =
        GetWeekdayAsString dt.day_of_week ∧
      (∀ (w h : ℤ) (c : analog_clock_t) (d : GDateTime),
        (draw_area_cb ⟨Real.pi, Real.sin, Real.cos⟩ w h d c).clock =
          (label_update c d).clock) := by
  have hfirst : ∀ a : GDateTime, a.in_range →
      (label_update clock_create_control a).clock.day = a.day_of_month ∧
        (label_update clock_create_control a).clock.oMonitor.wDate =
          DD_MM a.day_of_month a.month ∧
        (label_update clock_create_control a).clock.oMonitor.wDay =
          GetWeekdayAsString a.day_of_week := by
    intro a ha
    refine label_update_shows_new_day clock_create_control a ha ?_
    have h0 : clock_create_control.day = 0 := rfl
    have h1 := ha.2.2.1.1
    omega
  have hmain : (label_updates clock_create_control (samples ++ [dt])).oMonitor.wDate =
        DD_MM dt.day_of_month dt.month ∧
      (label_updates clock_create_control (samples ++ [dt])).oMonitor.wDay =
        GetWeekdayAsString dt.day_of_week := by
    cases samples with
    | nil =>
      have h1 := hfirst dt (hin dt (by simp))
      exact ⟨h1.2.1, h1.2.2⟩
    | cons a rest =>
      have h1 := hfirst a (hin a (by simp))
      have hc : List.Chain GDateTime.same_day_same_date a (rest ++ [dt]) := hchain
      exact label_updates_show_last dt rest (label_update clock_create_control a).clock a h1 hc
        (fun s hs => hin s (List.mem_cons_of_mem a hs))
  exact ⟨hmain.1, hmain.2, fun _ _ _ _ => rfl⟩

/-- C13 (witness): the redraws at 23:59 of 28/02 and at 00:00 of 01/03. -/
theorem C13_date_labels_current_witness :
    (label_updates clock_create_control
        ([⟨23, 59, 28, 2, 6⟩] ++ [⟨0, 0, 1, 3, 7⟩])).oMonitor.wDate = DD_MM 1 3 ∧
      (label_updates clock_create_control
        ([⟨23, 59, 28, 2, 6⟩] ++ [⟨0, 0, 1, 3, 7⟩])).oMonitor.wDay = GetWeekdayAsString 7 :=
  ⟨(C13_date_labels_current [⟨23, 59, 28, 2, 6⟩] ⟨0, 0, 1, 3, 7⟩ (by decide)
      (by simp [GDateTime.same_day_same_date])).1,
    (C13_date_labels_current [⟨23, 59, 28, 2, 6⟩] ⟨0, 0, 1, 3, 7⟩ (by decide)
      (by simp [GDateTime.same_day_same_date])).2.1⟩

/-! ### The hands -/

/-- C15: the filled path of DrawPointer (line = FALSE) is a move-to at
(xc + sin(a − π/2)·0.1·r, yc + cos(a − π/2)·0.1·r), an arc of radius 0.1·r
around the center from the cairo angle π − a to −a, a line to the tip
(xc + sin(a)·r·s, yc + cos(a)·r·s), close and fill.  The move-to point is the
start point of the arc; the arc ends at the point symmetric to it through the
center; the arc is a half circle (cairo raises the end angle by 2π once, the
sweep is π) whose midpoint is the center minus 0.1·r·(sin a, cos a), opposite
the tip direction; the base diameter is perpendicular to (sin a, cos a); and
draw_area_cb draws the minute hand with s = 0.8 and the hour hand with
s = 0.5. -/
theorem C15_teardrop (xc yc r a s : ℝ) :
    DrawPointer ⟨Real.pi, Real.sin, Real.cos⟩ xc yc r a s false =
        [CairoCall.move_to (xc + Real.sin (a - Real.pi / 2) * 0.1 * r)
            (yc + Real.cos (a - Real.pi / 2) * 0.1 * r),
          CairoCall.arc xc yc (0.1 * r) (Real.pi - a) (-a),
          CairoCall.line_to (xc + Real.sin a * r * s) (yc + Real.cos a * r * s),
          CairoCall.close_path, CairoCall.fill] ∧
      (xc + Real.sin (a - Real.pi / 2) * 0.1 * r, yc + Real.cos (a - Real.pi / 2) * 0.1 * r) =
        cairo_arc_point ⟨Real.pi, Real.sin, Real.cos⟩ xc yc (0.1 * r) (Real.pi - a) ∧
      cairo_arc_point ⟨Real.pi, Real.sin, Real.cos⟩ xc yc (0.1 * r) (-a) =
        (2 * xc - (xc + Real.sin (a - Real.pi / 2) * 0.1 * r),
         2 * yc - (yc + Real.cos (a - Real.pi / 2) * 0.1 * r)) ∧
      (-a < Real.pi - a ∧ Real.pi - a < -a + 2 * Real.pi ∧
        (-a + 2 * Real.pi) - (Real.pi - a) = Real.pi) ∧
      cairo_arc_point ⟨Real.pi, Real.sin, Real.cos⟩ xc yc (0.1 * r)
          ((Real.pi - a) + Real.pi / 2) =
        (xc - 0.1 * r * Real.sin a, yc - 0.1 * r * Real.cos a) ∧
      ((cairo_arc_point ⟨Real.pi, Real.sin, Real.cos⟩ xc yc (0.1 * r) (-a)).1 -
            (cairo_arc_point ⟨Real.pi, Real.sin, Real.cos⟩ xc yc (0.1 * r) (Real.pi - a)).1) *
          Real.sin a +
        ((cairo_arc_point ⟨Real.pi, Real.sin, Real.cos⟩ xc yc (0.1 * r) (-a)).2 -
            (cairo_arc_point ⟨Real.pi, Real.sin, Real.cos⟩ xc yc (0.1 * r) (Real.pi - a)).2) *
          Real.cos a = 0 ∧
      (∀ (w h : ℤ) (dt : GDateTime) (clock : analog_clock_t),
        (draw_area_cb ⟨Real.pi, Real.sin, Real.cos⟩ w h dt clock).cr =
          DrawTicks ⟨Real.pi, Real.sin, Real.cos⟩ (face_geometry w h : ℝ × ℝ × ℝ).1
              (face_geometry w h : ℝ × ℝ × ℝ).2.1 (face_geometry w h : ℝ × ℝ × ℝ).2.2 ++
            DrawPointer ⟨Real.pi, Real.sin, Real.cos⟩ (face_geometry w h : ℝ × ℝ × ℝ).1
              (face_geometry w h : ℝ × ℝ × ℝ).2.1 (face_geometry w h : ℝ × ℝ × ℝ).2.2
              (TICKS_TO_RADIANS ⟨Real.pi, Real.sin, Real.cos⟩ dt.minute) 0.8 false ++
            DrawPointer ⟨Real.pi, Real.sin, Real.cos⟩ (face_geometry w h : ℝ × ℝ × ℝ).1
              (face_geometry w h : ℝ × ℝ × ℝ).2.1 (face_geometry w h : ℝ × ℝ × ℝ).2.2
              (HOURS_TO_RADIANS ⟨Real.pi, Real.sin, Real.cos⟩ dt.hour dt.minute) 0.5
              false) := by
  have hpi := Real.pi_pos
  have hs1 : Real.sin (a - Real.pi / 2) = -Real.cos a := Real.sin_sub_pi_div_two a
  have hc1 : Real.cos (a - Real.pi / 2) = Real.sin a := Real.cos_sub_pi_div_two a
  have hs2 : Real.sin (Real.pi - a) = Real.sin a := Real.sin_pi_sub a
  have hc2 : Real.cos (Real.pi - a) = -Real.cos a := Real.cos_pi_sub a
  have hs3 : Real.sin (-a) = -Real.sin a := Real.sin_neg a
  have hc3 : Real.cos (-a) = Real.cos a := Real.cos_neg a
  have hmid : Real.pi - a + Real.pi / 2 = (Real.pi / 2 - a) + Real.pi := by ring
  have hs4 : Real.sin (Real.pi - a + Real.pi / 2) = -Real.cos a := by
    rw [hmid, Real.sin_add_pi, Real.sin_pi_div_two_sub]
  have hc4 : Real.cos (Real.pi - a + Real.pi / 2) = -Real.sin a := by
    rw [hmid, Real.cos_add_pi, Real.cos_pi_div_two_sub]
  refine ⟨?_, ?_, ?_, ⟨by linarith, by linarith, by ring⟩, ?_, ?_, fun w h dt clock => rfl⟩
  · have e1 : a - 0.5 * Real.pi = a - Real.pi / 2 := by ring
    have e2 : -a + Real.pi = Real.pi - a := by ring
    have e3 : r * (0.1 : ℝ) = 0.1 * r := by ring
    simp only [DrawPointer, CLOCK_SCALE, Bool.false_eq_true, if_false]
    rw [e1, e2, e3]
    simp only [mul_assoc, e3]
  · simp only [cairo_arc_point]
    rw [hs1, hc1, hs2, hc2]
    refine Prod.ext ?_ ?_ <;> simp only <;> ring
  · simp only [cairo_arc_point]
    rw [hs1, hc1, hs3, hc3]
    refine Prod.ext ?_ ?_ <;> simp only <;> ring
  · simp only [cairo_arc_point]
    rw [hs4, hc4]
    refine Prod.ext ?_ ?_ <;> simp only <;> ring
  · simp only [cairo_arc_point]
    rw [hs2, hc2, hs3, hc3]
    ring

/-- A point within `0.1·r` of a point at the distance `0.9·r` from the center
is within `r` of the center. -/
theorem disc_near_rim_inside (xc yc r S C px py : ℝ) (hr : 0 ≤ r)
    (hSC : S ^ 2 + C ^ 2 = 1)
    (hp : Real.sqrt ((px - (xc + S * (0.9 * r))) ^ 2 + (py - (yc + C * (0.9 * r))) ^ 2) ≤
      0.1 * r) :
    Real.sqrt ((px - xc) ^ 2 + (py - yc) ^ 2) ≤ r := by
  have h01 : (0 : ℝ) ≤ 0.1 * r := by positivity
  have hu := (Real.sqrt_le_left h01).mp hp
  rw [Real.sqrt_le_left hr]
  have hv : (S * (0.9 * r)) ^ 2 + (C * (0.9 * r)) ^ 2 = (0.9 * r) ^ 2 := by
    calc (S * (0.9 * r)) ^ 2 + (C * (0.9 * r)) ^ 2
        = (S ^ 2 + C ^ 2) * (0.9 * r) ^ 2 := by ring
      _ = (0.9 * r) ^ 2 := by rw [hSC, one_mul]
  nlinarith [sq_nonneg (3 * (px - (xc + S * (0.9 * r))) - S * (0.9 * r) / 3),
    sq_nonneg (3 * (py - (yc + C * (0.9 * r))) - C * (0.9 * r) / 3)]

/-- The tip of a hand of scale at most 1 is within `r` of the center. -/
theorem tip_inside (xc yc r a s : ℝ) (hr : 0 ≤ r) (hs0 : 0 ≤ s) (hs1 : s ≤ 1) :
    Real.sqrt ((xc + Real.sin a * r * s - xc) ^ 2 + (yc + Real.cos a * r * s - yc) ^ 2) ≤
      r := by
  rw [Real.sqrt_le_left hr]
  have h1 := Real.sin_sq_add_cos_sq a
  have hsq : (xc + Real.sin a * r * s - xc) ^ 2 + (yc + Real.cos a * r * s - yc) ^ 2 =
      (r * s) ^ 2 := by
    calc (xc + Real.sin a * r * s - xc) ^ 2 + (yc + Real.cos a * r * s - yc) ^ 2
        = (Real.sin a ^ 2 + Real.cos a ^ 2) * (r * s) ^ 2 := by ring
      _ = (r * s) ^ 2 := by rw [h1, one_mul]
  rw [hsq]
  have hrs : r * s ≤ r := by nlinarith
  have hrs0 : 0 ≤ r * s := mul_nonneg hr hs0
  nlinarith

/-- C16: on a canvas of non-negative width w and height h, with the center
(xc, yc) and the radius r that draw_area_cb computes, r is not negative; the
cairo calls of draw_area_cb are the twelve tick discs, each of radius 0.1·r
around a point at 0.9·r from the center, and for each hand a move-to, the
base arc of radius r·CLOCK_SCALE around the center and a line-to the tip at
r·0.8 (minute) or r·0.5 (hour); every point of every one of these calls (the
move-to and line-to points, and every point of the disc of each arc) is within
the distance r of the center, in particular every point of a tick disc, of
the hands' base circle, and both tips; and every point within the distance r
of the center lies in the rectangle [0, w] x [0, h]. -/
theorem C16_face_fits_canvas (w h : ℤ) (hw : 0 ≤ w) (hh : 0 ≤ h) (dt : GDateTime)
    (_hhr : dt.hour ≤ 23) (_hmin : dt.minute ≤ 59) (clock : analog_clock_t) (xc yc r : ℝ)
    (hg : (face_geometry w h : ℝ × ℝ × ℝ) = (xc, yc, r)) :
    0 ≤ r ∧
      (draw_area_cb ⟨Real.pi, Real.sin, Real.cos⟩ w h dt clock).cr =
        ((List.range 12).flatMap (tick_spec ⟨Real.pi, Real.sin, Real.cos⟩ xc yc r) ++
          [CairoCall.fill]) ++
        [CairoCall.move_to
            (xc + Real.sin (TICKS_TO_RADIANS ⟨Real.pi, Real.sin, Real.cos⟩ dt.minute -
                0.5 * Real.pi) * r * CLOCK_SCALE)
            (yc + Real.cos (TICKS_TO_RADIANS ⟨Real.pi, Real.sin, Real.cos⟩ dt.minute -
                0.5 * Real.pi) * r * CLOCK_SCALE),
          CairoCall.arc xc yc (r * CLOCK_SCALE)
            (-TICKS_TO_RADIANS ⟨Real.pi, Real.sin, Real.cos⟩ dt.minute + Real.pi)
            (-TICKS_TO_RADIANS ⟨Real.pi, Real.sin, Real.cos⟩ dt.minute),
          CairoCall.line_to
            (xc + Real.sin (TICKS_TO_RADIANS ⟨Real.pi, Real.sin, Real.cos⟩ dt.minute) * r * 0.8)
            (yc + Real.cos (TICKS_TO_RADIANS ⟨Real.pi, Real.sin, Real.cos⟩ dt.minute) * r * 0.8),
          CairoCall.close_path, CairoCall.fill] ++
        [CairoCall.move_to
            (xc + Real.sin (HOURS_TO_RADIANS ⟨Real.pi, Real.sin, Real.cos⟩ dt.hour dt.minute -
                0.5 * Real.pi) * r * CLOCK_SCALE)
            (yc + Real.cos (HOURS_TO_RADIANS ⟨Real.pi, Real.sin, Real.cos⟩ dt.hour dt.minute -
                0.5 * Real.pi) * r * CLOCK_SCALE),
          CairoCall.arc xc yc (r * CLOCK_SCALE)
            (-HOURS_TO_RADIANS ⟨Real.pi, Real.sin, Real.cos⟩ dt.hour dt.minute + Real.pi)
            (-HOURS_TO_RADIANS ⟨Real.pi, Real.sin, Real.cos⟩ dt.hour dt.minute),
          CairoCall.line_to
            (xc + Real.sin (HOURS_TO_RADIANS ⟨Real.pi, Real.sin, Real.cos⟩ dt.hour dt.minute) *
              r * 0.5)
            (yc + Real.cos (HOURS_TO_RADIANS ⟨Real.pi, Real.sin, Real.cos⟩ dt.hour dt.minute) *
              r * 0.5),
          CairoCall.close_path, CairoCall.fill] ∧
      (∀ c ∈ (draw_area_cb ⟨Real.pi, Real.sin, Real.cos⟩ w h dt clock).cr,
        CairoCall.inside xc yc r c) ∧
      (∀ i < 12, ∀ px py : ℝ,
        Real.sqrt
            ((px - (tick_center_spec ⟨Real.pi, Real.sin, Real.cos⟩ xc yc r i).1) ^ 2 +
              (py - (tick_center_spec ⟨Real.pi, Real.sin, Real.cos⟩ xc yc r i).2) ^ 2) ≤
            0.1 * r →
          Real.sqrt ((px - xc) ^ 2 + (py - yc) ^ 2) ≤ r) ∧
      (∀ px py : ℝ, Real.sqrt ((px - xc) ^ 2 + (py - yc) ^ 2) ≤ r * CLOCK_SCALE →
        Real.sqrt ((px - xc) ^ 2 + (py - yc) ^ 2) ≤ r) ∧
      Real.sqrt
          ((xc + Real.sin (TICKS_TO_RADIANS ⟨Real.pi, Real.sin, Real.cos⟩ dt.minute) * r * 0.8 -
              xc) ^ 2 +
            (yc + Real.cos (TICKS_TO_RADIANS ⟨Real.pi, Real.sin, Real.cos⟩ dt.minute) * r * 0.8 -
              yc) ^ 2) ≤ r ∧
      Real.sqrt
          ((xc +
                Real.sin (HOURS_TO_RADIANS ⟨Real.pi, Real.sin, Real.cos⟩ dt.hour dt.minute) *
                  r * 0.5 - xc) ^ 2 +
            (yc +
                Real.cos (HOURS_TO_RADIANS ⟨Real.pi, Real.sin, Real.cos⟩ dt.hour dt.minute) *
                  r * 0.5 - yc) ^ 2) ≤ r ∧
      (∀ px py : ℝ, Real.sqrt ((px - xc) ^ 2 + (py - yc) ^ 2) ≤ r →
        0 ≤ px ∧ px ≤ (w : ℝ) ∧ 0 ≤ py ∧ py ≤ (h : ℝ)) := by
  have hfloor := face_geometry_floor w h hw hh
  rw [hg] at hfloor
  have hxc : xc = ((w / 2 : ℤ) : ℝ) := congrArg Prod.fst hfloor
  have hyc : yc = ((h / 2 : ℤ) : ℝ) := congrArg (fun p => p.2.1) hfloor
  have hrr : r = ((min w h / 2 : ℤ) : ℝ) := congrArg (fun p => p.2.2) hfloor
  have i0 : 0 ≤ min w h / 2 := by
    rcases le_total w h with hwh | hwh
    · rw [min_eq_left hwh]; omega
    · rw [min_eq_right hwh]; omega
  have i1 : min w h / 2 ≤ w / 2 := by
    rcases le_total w h with hwh | hwh
    · rw [min_eq_left hwh]
    · rw [min_eq_right hwh]; omega
  have i2 : min w h / 2 ≤ h / 2 := by
    rcases le_total w h with hwh | hwh
    · rw [min_eq_left hwh]; omega
    · rw [min_eq_right hwh]
  have i3 : 2 * (w / 2) ≤ w := by omega
  have i4 : 2 * (h / 2) ≤ h := by omega
  have r0 : 0 ≤ r := by rw [hrr]; exact_mod_cast i0
  have r1 : r ≤ xc := by rw [hrr, hxc]; exact_mod_cast i1
  have r2 : r ≤ yc := by rw [hrr, hyc]; exact_mod_cast i2
  have r3 : 2 * xc ≤ (w : ℝ) := by rw [hxc]; exact_mod_cast i3
  have r4 : 2 * yc ≤ (h : ℝ) := by rw [hyc]; exact_mod_cast i4
  have hscale0 : (0 : ℝ) ≤ CLOCK_SCALE := by unfold CLOCK_SCALE; norm_num
  have hscale1 : (CLOCK_SCALE : ℝ) ≤ 1 := by unfold CLOCK_SCALE; norm_num
  have hbase : ∀ px py : ℝ, Real.sqrt ((px - xc) ^ 2 + (py - yc) ^ 2) ≤ r * CLOCK_SCALE →
      Real.sqrt ((px - xc) ^ 2 + (py - yc) ^ 2) ≤ r := by
    intro px py hp
    have hle : r * (CLOCK_SCALE : ℝ) ≤ r := by nlinarith
    exact le_trans hp hle
  have hdisc : ∀ i : ℕ, ∀ px py : ℝ,
      Real.sqrt
          ((px - (tick_center_spec ⟨Real.pi, Real.sin, Real.cos⟩ xc yc r i).1) ^ 2 +
            (py - (tick_center_spec ⟨Real.pi, Real.sin, Real.cos⟩ xc yc r i).2) ^ 2) ≤
          0.1 * r →
        Real.sqrt ((px - xc) ^ 2 + (py - yc) ^ 2) ≤ r := by
    intro i px py hp
    exact disc_near_rim_inside xc yc r _ _ px py r0
      (Real.sin_sq_add_cos_sq (Real.pi - Real.pi / 6 * (i : ℝ))) hp
  have hcenter : ∀ i : ℕ,
      Real.sqrt
          (((tick_center_spec ⟨Real.pi, Real.sin, Real.cos⟩ xc yc r i).1 - xc) ^ 2 +
            ((tick_center_spec ⟨Real.pi, Real.sin, Real.cos⟩ xc yc r i).2 - yc) ^ 2) ≤ r := by
    intro i
    refine hdisc i _ _ ?_
    rw [sub_self, sub_self]
    have h01 : (0 : ℝ) ≤ 0.1 * r := by positivity
    simpa using h01
  have hcr : (draw_area_cb ⟨Real.pi, Real.sin, Real.cos⟩ w h dt clock).cr =
      ((List.range 12).flatMap (tick_spec ⟨Real.pi, Real.sin, Real.cos⟩ xc yc r) ++
        [CairoCall.fill]) ++
      DrawPointer ⟨Real.pi, Real.sin, Real.cos⟩ xc yc r
        (TICKS_TO_RADIANS ⟨Real.pi, Real.sin, Real.cos⟩ dt.minute) 0.8 false ++
      DrawPointer ⟨Real.pi, Real.sin, Real.cos⟩ xc yc r
        (HOURS_TO_RADIANS ⟨Real.pi, Real.sin, Real.cos⟩ dt.hour dt.minute) 0.5 false := by
    rw [draw_area_cb_cr, hg]
    show DrawTicks ⟨Real.pi, Real.sin, Real.cos⟩ xc yc r ++ _ ++ _ = _
    rw [DrawTicks, DrawTicks_loop_spec xc yc r 12 0 rfl, List.range_eq_range']
  have hptr : ∀ a s : ℝ, 0 ≤ s → s ≤ 1 →
      ∀ c ∈ DrawPointer ⟨Real.pi, Real.sin, Real.cos⟩ xc yc r a s false,
        CairoCall.inside xc yc r c := by
    intro a s hs0 hs1 c hc
    simp only [DrawPointer, Bool.false_eq_true, if_false, List.mem_cons, List.mem_singleton,
      List.not_mem_nil, or_false] at hc
    rcases hc with rfl | rfl | rfl | rfl | rfl
    · exact tip_inside xc yc r (a - 0.5 * Real.pi) CLOCK_SCALE r0 hscale0 hscale1
    · exact hbase
    · exact tip_inside xc yc r a s r0 hs0 hs1
    · trivial
    · trivial
  refine ⟨r0, ?_, ?_, fun i _ => hdisc i, hbase, ?_, ?_, ?_⟩
  · rw [hcr]
    rfl
  · intro c hc
    rw [hcr] at hc
    rcases List.mem_append.mp hc with hc1 | hhour
    · rcases List.mem_append.mp hc1 with hc2 | hminute
      · rcases List.mem_append.mp hc2 with hticks | hfill
        · obtain ⟨i, _, hi⟩ := List.mem_flatMap.mp hticks
          simp only [tick_spec, List.mem_cons, List.mem_singleton, List.not_mem_nil,
            or_false] at hi
          rcases hi with rfl | rfl | rfl
          · exact hcenter i
          · exact hdisc i
          · trivial
        · rw [List.mem_singleton.mp hfill]
          trivial
      · exact hptr _ 0.8 (by norm_num) (by norm_num) c hminute
    · exact hptr _ 0.5 (by norm_num) (by norm_num) c hhour
  · exact tip_inside xc yc r _ 0.8 r0 (by norm_num) (by norm_num)
  · exact tip_inside xc yc r _ 0.5 r0 (by norm_num) (by norm_num)
  · intro px py hp
    have hx : |px - xc| ≤ r :=
      le_trans (Real.abs_le_sqrt (by nlinarith [sq_nonneg (py - yc)])) hp
    have hy : |py - yc| ≤ r :=
      le_trans (Real.abs_le_sqrt (by nlinarith [sq_nonneg (px - xc)])) hp
    rw [abs_le] at hx hy
    refine ⟨by linarith, by linarith, by linarith, by linarith⟩

/-- C16 (witness): the 100 x 60 canvas, with the center (50, 30) and the
radius 30, at 10:10: the tip of the minute hand is within 30 of the center. -/
theorem C16_face_fits_canvas_witness :
    Real.sqrt
        (((50 : ℝ) + Real.sin (TICKS_TO_RADIANS ⟨Real.pi, Real.sin, Real.cos⟩ 10) * 30 * 0.8 -
            50) ^ 2 +
          ((30 : ℝ) + Real.cos (TICKS_TO_RADIANS ⟨Real.pi, Real.sin, Real.cos⟩ 10) * 30 * 0.8 -
            30) ^ 2) ≤ 30 :=
  (C16_face_fits_canvas 100 60 (by decide) (by decide) ⟨10, 10, 1, 1, 4⟩ (by decide)
    (by decide) clock_create_control 50 30 30
    (by
      have h1 : Int.tdiv 100 2 = 50 := rfl
      have h2 : Int.tdiv 60 2 = 30 := rfl
      unfold face_geometry
      simp [h1, h2]
      norm_num)).2.2.2.2.2.1

/-- Up to 23 the macro is the `h mod 12` formula, one full turn lower at 12. -/
theorem hours_to_radians_fold (h m : ℕ) (hh : h ≤ 23) :
    HOURS_TO_RADIANS ⟨Real.pi, Real.sin, Real.cos⟩ h m =
      hour_angle_spec Real.pi h m - (if h = 12 then 2 * Real.pi else 0) := by
  simp only [HOURS_TO_RADIANS, hour_angle_spec]
  rw [hours_fold_cast h hh]
  split_ifs <;> ring

/-- Twelve hours later the macro gives the same angle, one full turn lower
for the hour 0. -/
theorem hours_to_radians_plus_twelve (h m : ℕ) (hh : h ≤ 11) :
    HOURS_TO_RADIANS ⟨Real.pi, Real.sin, Real.cos⟩ (h + 12) m =
      HOURS_TO_RADIANS ⟨Real.pi, Real.sin, Real.cos⟩ h m -
        (if h = 0 then 2 * Real.pi else 0) := by
  have hcast : (((if h + 12 > 12 then h + 12 - 12 else h + 12 : ℕ) : ℝ)) =
      (((if h > 12 then h - 12 else h : ℕ) : ℝ)) + (if h = 0 then 12 else 0) := by
    interval_cases h <;> norm_num
  simp only [HOURS_TO_RADIANS]
  rw [hcast]
  split_ifs <;> ring

/-- C17: for every hour h in [0,23] and minute m in [0,59] the sine and the
cosine of HOURS_TO_RADIANS(h, m) are those of π − (π/6)·((h mod 12) + m/60),
so the tip and the start point of the hour hand that DrawPointer computes
are the same under both formulas; 12:mm is drawn where 00:mm is, and for
h in [0,11] the hours h and h + 12 give the same sine and cosine, hence the
same hand position. -/
theorem C17_fold_draws_as_mod (h m : ℕ) (hh : h ≤ 23) (_hm : m ≤ 59) :
    Real.sin (HOURS_TO_RADIANS ⟨Real.pi, Real.sin, Real.cos⟩ h m) =
        Real.sin (hour_angle_spec Real.pi h m) ∧
      Real.cos (HOURS_TO_RADIANS ⟨Real.pi, Real.sin, Real.cos⟩ h m) =
        Real.cos (hour_angle_spec Real.pi h m) ∧
      (∀ xc yc r : ℝ,
        (xc + Real.sin (HOURS_TO_RADIANS ⟨Real.pi, Real.sin, Real.cos⟩ h m) * r * 0.5,
          yc + Real.cos (HOURS_TO_RADIANS ⟨Real.pi, Real.sin, Real.cos⟩ h m) * r * 0.5) =
        (xc + Real.sin (hour_angle_spec Real.pi h m) * r * 0.5,
          yc + Real.cos (hour_angle_spec Real.pi h m) * r * 0.5) ∧
        (DrawPointer ⟨Real.pi, Real.sin, Real.cos⟩ xc yc r
            (HOURS_TO_RADIANS ⟨Real.pi, Real.sin, Real.cos⟩ h m) 0.5 false).head? =
          (DrawPointer ⟨Real.pi, Real.sin, Real.cos⟩ xc yc r
            (hour_angle_spec Real.pi h m) 0.5 false).head? ∧
        CairoCall.line_to
            (xc + Real.sin (hour_angle_spec Real.pi h m) * r * 0.5)
            (yc + Real.cos (hour_angle_spec Real.pi h m) * r * 0.5) ∈
          DrawPointer ⟨Real.pi, Real.sin, Real.cos⟩ xc yc r
            (HOURS_TO_RADIANS ⟨Real.pi, Real.sin, Real.cos⟩ h m) 0.5 false) ∧
      (Real.sin (HOURS_TO_RADIANS ⟨Real.pi, Real.sin, Real.cos⟩ 12 m) =
          Real.sin (HOURS_TO_RADIANS ⟨Real.pi, Real.sin, Real.cos⟩ 0 m) ∧
        Real.cos (HOURS_TO_RADIANS ⟨Real.pi, Real.sin, Real.cos⟩ 12 m) =
          Real.cos (HOURS_TO_RADIANS ⟨Real.pi, Real.sin, Real.cos⟩ 0 m)) ∧
      (h ≤ 11 →
        Real.sin (HOURS_TO_RADIANS ⟨Real.pi, Real.sin, Real.cos⟩ (h + 12) m) =
            Real.sin (HOURS_TO_RADIANS ⟨Real.pi, Real.sin, Real.cos⟩ h m) ∧
          Real.cos (HOURS_TO_RADIANS ⟨Real.pi, Real.sin, Real.cos⟩ (h + 12) m) =
            Real.cos (HOURS_TO_RADIANS ⟨Real.pi, Real.sin, Real.cos⟩ h m)) := by
  have hsin : Real.sin (HOURS_TO_RADIANS ⟨Real.pi, Real.sin, Real.cos⟩ h m) =
      Real.sin (hour_angle_spec Real.pi h m) := by
    rw [hours_to_radians_fold h m hh]
    split_ifs
    · exact Real.sin_sub_two_pi _
    · rw [sub_zero]
  have hcos : Real.cos (HOURS_TO_RADIANS ⟨Real.pi, Real.sin, Real.cos⟩ h m) =
      Real.cos (hour_angle_spec Real.pi h m) := by
    rw [hours_to_radians_fold h m hh]
    split_ifs
    · exact Real.cos_sub_two_pi _
    · rw [sub_zero]
  have hplus : ∀ k : ℕ, k ≤ 11 →
      Real.sin (HOURS_TO_RADIANS ⟨Real.pi, Real.sin, Real.cos⟩ (k + 12) m) =
          Real.sin (HOURS_TO_RADIANS ⟨Real.pi, Real.sin, Real.cos⟩ k m) ∧
        Real.cos (HOURS_TO_RADIANS ⟨Real.pi, Real.sin, Real.cos⟩ (k + 12) m) =
          Real.cos (HOURS_TO_RADIANS ⟨Real.pi, Real.sin, Real.cos⟩ k m) := by
    intro k hk
    rw [hours_to_radians_plus_twelve k m hk]
    split_ifs
    · exact ⟨Real.sin_sub_two_pi _, Real.cos_sub_two_pi _⟩
    · rw [sub_zero]
      exact ⟨rfl, rfl⟩
  refine ⟨hsin, hcos, ?_, hplus 0 (by norm_num), hplus h⟩
  intro xc yc r
  have hstart_s : Real.sin (HOURS_TO_RADIANS ⟨Real.pi, Real.sin, Real.cos⟩ h m - 0.5 * Real.pi) =
      Real.sin (hour_angle_spec Real.pi h m - 0.5 * Real.pi) := by
    rw [Real.sin_sub, Real.sin_sub, hsin, hcos]
  have hstart_c : Real.cos (HOURS_TO_RADIANS ⟨Real.pi, Real.sin, Real.cos⟩ h m - 0.5 * Real.pi) =
      Real.cos (hour_angle_spec Real.pi h m - 0.5 * Real.pi) := by
    rw [Real.cos_sub, Real.cos_sub, hsin, hcos]
  refine ⟨by rw [hsin, hcos], ?_, ?_⟩
  · simp only [DrawPointer, Bool.false_eq_true, if_false, List.head?_cons]
    rw [hstart_s, hstart_c]
  · simp only [DrawPointer, Bool.false_eq_true, if_false]
    rw [hsin, hcos]
    simp

/-- C17 (witness): at 12:30 the sine of the macro's angle is the sine of the
angle of the `h mod 12` formula. -/
theorem C17_fold_draws_as_mod_witness :
    Real.sin (HOURS_TO_RADIANS ⟨Real.pi, Real.sin, Real.cos⟩ 12 30) =
      Real.sin (hour_angle_spec Real.pi 12 30) :=
  (C17_fold_draws_as_mod 12 30 (by decide) (by decide)).1

end Clock
